import Mathlib

/-!
Shallow embedding of `src/app.py` (a Streamlit marketing dashboard).

Dataframes are modelled as an ordered list of column names plus rows of
(column, value) association lists.  Cell values are rationals (pandas
numerics), raw strings, parsed calendar dates, or a missing marker
(NaN/NaT/pd.NA collapsed into one constructor).  Operations that can raise
in pandas (column access on a missing column, sums over mixed-type columns,
arithmetic with strings, truth-testing pd.NA) return `Except String`.
-/

namespace MD

/-- A cell value: a number, a raw string, a parsed calendar date
(year, month, day), or the missing marker (NaN/NaT/pd.NA). -/
inductive Value where
  | num (q : ℚ)
  | str (s : String)
  | date (y m d : ℕ)
  | na
deriving DecidableEq, Repr

abbrev Row := List (String × Value)

/-- Cell lookup in a row; a column with no binding reads as missing
(pandas fills absent cells with NaN, e.g. after `concat`). -/
def rowGet : Row → String → Value
  | [], _ => Value.na
  | p :: r, c => if p.1 = c then p.2 else rowGet r c

/-- A dataframe: ordered column names plus rows of (column, value) bindings. -/
structure DF where
  cols : List String
  rows : List Row
deriving DecidableEq, Repr

def emptyDF : DF := ⟨[], []⟩

/-- pandas `df.empty`: no rows or no columns. -/
def DF.isEmptyB (df : DF) : Bool := df.rows.isEmpty || df.cols.isEmpty

def isNa : Value → Bool
  | .na => true
  | _ => false

def isNumV : Value → Bool
  | .num _ => true
  | _ => false

def isStrV : Value → Bool
  | .str _ => true
  | _ => false

def numOrNa : Value → Bool
  | .num _ => true
  | .na => true
  | _ => false

def qOf : Value → ℚ
  | .num q => q
  | _ => 0

def sOf : Value → String
  | .str s => s
  | _ => ""

/-- `df.rename(columns=f)` as a total function on column names. -/
def renameCols (df : DF) (f : String → String) : DF :=
  ⟨df.cols.map f, df.rows.map (fun r => r.map (fun p => (f p.1, p.2)))⟩

/-- `df[c] = v` with a constant value: drop old bindings for `c`,
append the new one, add the column if it was absent. -/
def setConst (df : DF) (c : String) (v : Value) : DF :=
  ⟨if df.cols.contains c then df.cols else df.cols ++ [c],
   df.rows.map (fun r => r.filter (fun p => decide (p.1 ≠ c)) ++ [(c, v)])⟩

/-- `df[c] = df[c].map f`: transform the cells of one column in place. -/
def mapCol (df : DF) (c : String) (f : Value → Value) : DF :=
  ⟨df.cols, df.rows.map (fun r => r.map (fun p => if p.1 = c then (p.1, f p.2) else p))⟩

/-- Python `c.strip().lower()` used on every column name (implemented over
the character list so that it reduces in the kernel). -/
def lowTrim (c : String) : String :=
  String.mk (((c.data.dropWhile Char.isWhitespace).reverse.dropWhile
    Char.isWhitespace).reverse.map Char.toLower)

/-- Apply a synonym table to one column name; unknown names pass through. -/
def applyMap (m : List (String × String)) (c : String) : String :=
  match m.find? (fun p => p.1 == c) with
  | some p => p.2
  | none => c

/-- The `colmap` dictionary of `norm` (app.py lines 29-39). -/
def mktColmap : List (String × String) :=
  [("date", "date"), ("tactic", "tactic"), ("state", "state"),
   ("campaign", "campaign"), ("impressions", "impressions"),
   ("clicks", "clicks"), ("spend", "spend"),
   ("attributed revenue", "revenue"), ("revenue", "revenue")]

/-- The business rename dictionary of `load_data` (app.py lines 69-76). -/
def bizColmap : List (String × String) :=
  [("# of orders", "orders"), ("# or new orders", "new_orders"),
   ("new customers", "new_customers"), ("total revenue", "total_revenue"),
   ("gross profit", "gross_profit"), ("cogs", "cogs")]

/-- Split a character list on a separator (the `"-"` split of a date). -/
def splitOnChar (sep : Char) (l : List Char) : List (List Char) :=
  l.foldr (fun ch acc => match acc with
    | [] => [[ch]]
    | a :: as => if ch = sep then [] :: a :: as else (ch :: a) :: as) [[]]

/-- Parse a non-empty all-digit character list as a natural number. -/
def digitsToNat? (l : List Char) : Option ℕ :=
  if l ≠ [] ∧ l.all Char.isDigit then
    some (l.foldl (fun n ch => n * 10 + (ch.toNat - 48)) 0)
  else none

/-- Permissive date parsing, restricted to the ISO `Y-M-D` shape the
inputs use; anything else fails to parse. -/
def parseDate? (v : Value) : Option (ℕ × ℕ × ℕ) :=
  match v with
  | .str s =>
    match splitOnChar '-' s.data with
    | [ys, ms, ds] =>
      match digitsToNat? ys, digitsToNat? ms, digitsToNat? ds with
      | some y, some m, some d =>
        if 1 ≤ m ∧ m ≤ 12 ∧ 1 ≤ d ∧ d ≤ 31 then some (y, m, d)
        else none
      | _, _, _ => none
    | _ => none
  | _ => none

/-- `pd.to_datetime(x, errors="coerce")` on one cell: unparsable values
become the missing marker (NaT). -/
def toDatetime (v : Value) : Value :=
  match parseDate? v with
  | some (y, m, d) => .date y m d
  | none => .na

def mktNumCols : List String := ["impressions", "clicks", "spend", "revenue"]

/-- One step of the "add missing cols as 0" loop (app.py lines 43-45). -/
def fillF (d : DF) (c : String) : DF :=
  if d.cols.contains c then d else setConst d c (.num 0)

/-- The two marketing renames of `norm` (app.py lines 28 and 40). -/
def rename2M (df : DF) : DF := renameCols (renameCols df lowTrim) (applyMap mktColmap)

/-- `norm` (app.py lines 23-50): rename columns to lowercase/stripped form,
apply the marketing synonym map, zero-fill absent canonical numeric columns,
stamp the source tag, and coerce the date column when present. -/
def norm (df : DF) (sourceName : String) : DF :=
  if df.isEmptyB then df
  else
    let d3 := mktNumCols.foldl fillF (rename2M df)
    let d4 := setConst d3 "source" (.str sourceName)
    if d4.cols.contains "date" then mapCol d4 "date" toDatetime else d4

def bizNumCols : List String :=
  ["orders", "new_orders", "new_customers", "total_revenue", "gross_profit"]

/-- The two business renames of `load_data` (app.py lines 68-76). -/
def rename2B (df : DF) : DF := renameCols (renameCols df lowTrim) (applyMap bizColmap)

/-- The business branch of `load_data` (app.py lines 67-78): rename columns,
apply the business synonym map, coerce the date column when present.
Note: unlike `norm`, there is no zero-fill of absent columns. -/
def normBiz (df : DF) : DF :=
  if (rename2B df).cols.contains "date" then mapCol (rename2B df) "date" toDatetime
  else rename2B df

def unionCols (a b : List String) : List String :=
  a ++ b.filter (fun c => !(a.contains c))

/-- `pd.concat(dfs, ignore_index=True)`: union of columns, rows appended;
cells of columns a frame lacks read back as NaN (see `rowGet`). -/
def concatDF (ds : List DF) : DF :=
  ⟨ds.foldl (fun acc d => unionCols acc d.cols) [],
   ds.foldl (fun acc d => acc ++ d.rows) []⟩

/-- State of one path on disk: a file whose read raises, or one that
parses to a dataframe.  Absence is modelled by the path not being bound. -/
inductive FileContent where
  | malformedFile
  | table (df : DF)
deriving DecidableEq, Repr

abbrev FS := List (String × FileContent)

def fsGet (fs : FS) (p : String) : Option FileContent :=
  (fs.find? (fun e => e.1 == p)).map Prod.snd

/-- `safe_read` (app.py lines 9-20): a missing path or a file whose read
raises yields an empty frame; otherwise the parsed frame. -/
def safe_read (fs : FS) (p : String) : DF :=
  match fsGet fs p with
  | some (.table df) => df
  | _ => emptyDF

/-- `load_data` (app.py lines 53-79). -/
def load_data (fs : FS) : DF × DF :=
  let fb := safe_read fs "Facebook.csv"
  let gg := safe_read fs "data/Google.csv"
  let tk := safe_read fs "data/TikTok.csv"
  let biz := safe_read fs "business.csv"
  let mkt := concatDF [norm fb "Facebook", norm gg "Google", norm tk "TikTok"]
  let biz2 := if biz.isEmptyB then biz else normBiz biz
  (mkt, biz2)

/-- pandas column sum with `skipna`: all-numeric sums to a number (empty
sums to 0), an all-string object column concatenates, mixed types raise. -/
def sumValsE (l : List Value) : Except String Value :=
  let l2 := l.filter (fun v => !(isNa v))
  if l2.all isNumV then .ok (.num ((l2.map qOf).sum))
  else if l2.all isStrV then .ok (.str (String.join (l2.map sOf)))
  else .error "TypeError"

/-- `df[c]`: raises KeyError when the column is absent. -/
def colE (df : DF) (c : String) : Except String (List Value) :=
  if df.cols.contains c then .ok (df.rows.map (fun r => rowGet r c))
  else .error "KeyError"

def keyOf (keys : List String) (r : Row) : List Value := keys.map (rowGet r)

/-- pandas groupby drops rows whose key contains a missing value. -/
def validKey (k : List Value) : Bool := k.all (fun v => !(isNa v))

/-- `df.groupby(keys, as_index=False).agg(out=(src, "sum"))`: distinct valid
keys, each group the sub-list of rows carrying that key, sums per group. -/
def groupAgg (df : DF) (keys : List String) (aggs : List (String × String)) :
    Except String DF :=
  if keys.all (fun c => df.cols.contains c) && aggs.all (fun a => df.cols.contains a.2) then do
    let rows ← (((df.rows.map (keyOf keys)).filter validKey).dedup).mapM (fun k => do
      let cells ← aggs.mapM (fun a => do
        let v ← sumValsE ((df.rows.filter (fun r => decide (keyOf keys r = k))).map
          (fun r => rowGet r a.2))
        pure (a.1, v))
      pure (keys.zip k ++ cells))
    pure (DF.mk (keys ++ aggs.map Prod.fst) rows)
  else .error "KeyError"

/-- `col.replace(0, pd.NA)` on one cell. -/
def replace0 (v : Value) : Value := if v = .num 0 then .na else v

/-- Element-wise division: NA propagates, strings raise TypeError.
Division of a number by numeric zero only happens in numpy contexts in the
script, where pandas yields inf/nan; collapsed to the missing marker here
(the script never consumes such a cell numerically downstream). -/
def divVal : Value → Value → Except String Value
  | .num a, .num b => .ok (if b = 0 then .na else .num (a / b))
  | .num _, .na => .ok .na
  | .na, .num _ => .ok .na
  | .na, .na => .ok .na
  | _, _ => .error "TypeError"

/-- Scalar `v > q`: comparing a string or truth-testing pd.NA raises. -/
def gtE (v : Value) (q : ℚ) : Except String Bool :=
  match v with
  | .num a => .ok (decide (q < a))
  | _ => .error "TypeError"

/-- Scalar `v < q`. -/
def ltE (v : Value) (q : ℚ) : Except String Bool :=
  match v with
  | .num a => .ok (decide (a < q))
  | _ => .error "TypeError"

/-- Scalar `a > b` between two cell values. -/
def gtVV : Value → Value → Except String Bool
  | .num a, .num b => .ok (decide (b < a))
  | _, _ => .error "TypeError"

/-- Number formatting (f-strings with `:,`/`:.2f` specs raise on strings). -/
def fmtNum : Value → Except String String
  | .num q => .ok (toString q)
  | _ => .error "TypeError"

/-- Python `max(v, q)` between a cell value and a literal. -/
def maxE (v : Value) (q : ℚ) : Except String Value :=
  match v with
  | .num a => .ok (.num (max a q))
  | _ => .error "TypeError"

/-- `mkt.groupby("source", as_index=False)["spend"].sum()` (app.py line 103). -/
def spend_by_source (mkt : DF) : Except String DF :=
  groupAgg mkt ["source"] [("spend", "spend")]

/-- `mkt.groupby("source", as_index=False)["revenue"].sum()` (app.py line 104). -/
def rev_by_source (mkt : DF) : Except String DF :=
  groupAgg mkt ["source"] [("revenue", "revenue")]

/-- The date-only rollup feeding fig5 (app.py line 127):
`mkt.groupby("date", as_index=False)[["spend", "revenue"]].sum()`. -/
def day_rollup (mkt : DF) : Except String DF :=
  groupAgg mkt ["date"] [("spend", "spend"), ("revenue", "revenue")]

/-- `channel_perf` (app.py lines 137-141): channel rollup of spend/revenue
plus `roas = revenue / spend.replace(0, pd.NA)`. -/
def channel_perf (mkt : DF) : Except String DF := do
  let base ← groupAgg mkt ["source"] [("spend", "spend"), ("revenue", "revenue")]
  let rows ← base.rows.mapM (fun r => do
    let v ← divVal (rowGet r "revenue") (replace0 (rowGet r "spend"))
    pure (r ++ [("roas", v)]))
  pure (DF.mk (base.cols ++ ["roas"]) rows)

/-- `mkt_day` (app.py lines 180-183): the date-by-channel grouping. -/
def mkt_day (mkt : DF) : Except String DF :=
  groupAgg mkt ["date", "source"] [("spend", "spend"), ("revenue", "revenue")]

/-- `pd.merge(l, r, on=key, how="left")`: every left row retained, matching
right rows appended, unmatched right-side columns filled with NaN. -/
def mergeLeft (l r : DF) (key : String) : DF :=
  let rcols := r.cols.filter (fun c => decide (c ≠ key))
  DF.mk (l.cols ++ rcols)
    (List.flatten (l.rows.map (fun lr =>
      let ms := r.rows.filter (fun rr => decide (rowGet rr key = rowGet lr key))
      if ms.isEmpty then [lr ++ rcols.map (fun c => (c, Value.na))]
      else ms.map (fun rr => lr ++ rcols.map (fun c => (c, rowGet rr c))))))

/-- `rev_compare` (app.py lines 180-188): left join of the date-collapsed
business rollup with the date-collapsed marketing rollup, keyed by date. -/
def rev_compare (mkt biz : DF) : Except String DF := do
  let md ← mkt_day mkt
  let bd ← groupAgg biz ["date"] [("total_revenue", "total_revenue")]
  let att ← groupAgg md ["date"] [("attributed_revenue", "revenue")]
  pure (mergeLeft bd att "date")

/-- `cac_df` (app.py lines 166-169): copy of `channel_perf` with
`cac = spend / total_new_orders if total_new_orders > 0 else 0` and the
broadcast `gm_per_order` column. -/
def cacDf (cp : DF) (tno : Value) (gm : Value) : Except String DF := do
  let b ← gtE tno 0
  let rows ← cp.rows.mapM (fun r =>
    (if b then divVal (rowGet r "spend") tno else pure (Value.num 0)) >>= fun c =>
      pure (r ++ [("cac", c), ("gm_per_order", gm)]))
  pure (DF.mk (cp.cols ++ ["cac", "gm_per_order"]) rows)

/-- The insight `cac` (app.py line 209):
`(mkt["spend"].sum() / biz["new_orders"].sum()) if "new_orders" in
biz.columns and biz["new_orders"].sum() > 0 else 0`. -/
def cacInsight (mkt biz : DF) : Except String Value := do
  if biz.cols.contains "new_orders" then do
    let tnoL ← colE biz "new_orders"
    let tno ← sumValsE tnoL
    let b ← gtE tno 0
    if b then do
      let tsL ← colE mkt "spend"
      let ts ← sumValsE tsL
      divVal ts tno
    else pure (.num 0)
  else pure (.num 0)

/-- Ordering used by `sort_values(ascending=False)`: numbers descending,
missing values last. -/
def sortBefore : Value → Value → Bool
  | .num a, .num b => decide (b < a)
  | .num _, .na => true
  | _, _ => false

def insertDesc (col : String) (r : Row) : List Row → List Row
  | [] => [r]
  | r2 :: rest =>
    if sortBefore (rowGet r col) (rowGet r2 col) then r :: r2 :: rest
    else r2 :: insertDesc col r rest

def sortKeyOk : Value → Bool
  | .num _ => true
  | .na => true
  | _ => false

/-- `df.sort_values(col, ascending=False)`: raises on a missing column or
on a column mixing numbers with strings. -/
def sortValuesDesc (df : DF) (col : String) : Except String DF :=
  if df.cols.contains col && df.rows.all (fun r => sortKeyOk (rowGet r col)) then
    .ok ⟨df.cols, df.rows.foldl (fun acc r => insertDesc col r acc) []⟩
  else .error "TypeError"

/-- Section 1 of the dashboard (app.py lines 87-98): business KPI metrics. -/
def sec1 (biz : DF) : Except String Unit :=
  if !biz.isEmptyB then
    (if biz.cols.contains "orders" then colE biz "orders" >>= fun l => sumValsE l
     else pure (.num 0)) >>= fun tot =>
    (if biz.cols.contains "new_orders" then colE biz "new_orders" >>= fun l => sumValsE l
     else pure (.num 0)) >>= fun _ =>
    fmtNum tot >>= fun _ =>
    (if biz.cols.contains "new_customers" then
       colE biz "new_customers" >>= fun l => sumValsE l >>= fun s => fmtNum s
     else pure "") >>= fun _ =>
    (if biz.cols.contains "total_revenue" then
       colE biz "total_revenue" >>= fun l => sumValsE l >>= fun s => fmtNum s
     else pure "") >>= fun _ =>
    (if biz.cols.contains "gross_profit" then
       colE biz "gross_profit" >>= fun l => sumValsE l >>= fun s => fmtNum s
     else pure "") >>= fun _ =>
    pure ()
  else pure ()

/-- Section 2 (app.py lines 101-113): spend and revenue by channel. -/
def sec2 (mkt : DF) : Except String Unit :=
  if !mkt.isEmptyB then
    spend_by_source mkt >>= fun _ =>
    rev_by_source mkt >>= fun _ =>
    pure ()
  else pure ()

/-- Section 3's marketing trend (app.py lines 125-132); the business trend
charts at lines 117-123 involve no computation beyond plotting. -/
def sec3 (mkt : DF) : Except String Unit :=
  if !mkt.isEmptyB then
    day_rollup mkt >>= fun _ => pure ()
  else pure ()

/-- Section 6 (app.py lines 162-176): CAC vs gross margin per order. -/
def sec6 (cp biz : DF) : Except String Unit :=
  if !biz.isEmptyB && biz.cols.contains "orders" && biz.cols.contains "new_orders" then
    colE biz "orders" >>= fun ordL =>
    sumValsE ordL >>= fun tord =>
    colE biz "new_orders" >>= fun noL =>
    sumValsE noL >>= fun tno =>
    gtE tord 0 >>= fun b1 =>
    gtE tno 0 >>= fun b2 =>
    if b1 && b2 then
      (if biz.cols.contains "gross_profit" then
         colE biz "gross_profit" >>= fun gpL =>
         sumValsE gpL >>= fun gp =>
         divVal gp tord
       else pure (Value.num 0)) >>= fun gm =>
      cacDf cp tno gm >>= fun _ =>
      pure ()
    else pure ()
  else pure ()

/-- Section 7 (app.py lines 179-193): the attribution-gap join. -/
def sec7 (mkt biz : DF) : Except String Unit :=
  if !biz.isEmptyB && biz.cols.contains "total_revenue" && biz.cols.contains "date" then
    rev_compare mkt biz >>= fun _ => pure ()
  else pure ()

/-- The high/low-CAC insight of section 8 (app.py lines 204-215). -/
def sec8insight (mkt biz : DF) : Except String Unit :=
  if !biz.isEmptyB && biz.cols.contains "orders" && biz.cols.contains "gross_profit" then
    colE biz "orders" >>= fun ordL =>
    sumValsE ordL >>= fun tord =>
    gtE tord 0 >>= fun bo =>
    (if bo then
       colE biz "gross_profit" >>= fun gpL =>
       sumValsE gpL >>= fun gp =>
       divVal gp tord
     else pure (Value.num 0)) >>= fun gm =>
    cacInsight mkt biz >>= fun cac =>
    gtVV cac gm >>= fun _ =>
    pure ()
  else pure ()

/-- The top-channel insight of section 8 (app.py lines 217-219): sort by
roas and take the first row. -/
def sec8top (cp : DF) : Except String Unit :=
  if !cp.isEmptyB then
    sortValuesDesc cp "roas" >>= fun sorted =>
    match sorted.rows with
    | r :: _ =>
      let _ := rowGet r "source"
      pure ()
    | [] => Except.error "IndexError"
  else pure ()

/-- The new-vs-repeat mix insight of section 8 (app.py lines 221-227). -/
def sec8mix (biz : DF) : Except String Unit :=
  if !biz.isEmptyB && biz.cols.contains "orders" && biz.cols.contains "new_orders" then
    colE biz "new_orders" >>= fun noL =>
    sumValsE noL >>= fun tno =>
    colE biz "orders" >>= fun ordL =>
    sumValsE ordL >>= fun tord =>
    maxE tord 1 >>= fun m =>
    divVal tno m >>= fun mix =>
    gtE mix (1 / 2) >>= fun _ =>
    pure ()
  else pure ()

/-- Section 8 (app.py lines 196-227): the insight computations. -/
def sec8 (mkt biz cp : DF) : Except String Unit :=
  colE mkt "spend" >>= fun tsL =>
  sumValsE tsL >>= fun ts =>
  gtE ts 0 >>= fun b =>
  (if b then
     colE mkt "revenue" >>= fun trL =>
     sumValsE trL >>= fun tr =>
     divVal tr ts
   else pure (Value.num 0)) >>= fun roas =>
  gtE roas 2 >>= fun b2 =>
  (if !b2 then ltE roas 1 else pure false) >>= fun _ =>
  sec8insight mkt biz >>= fun _ =>
  sec8top cp >>= fun _ =>
  sec8mix biz

/-- Sections 4 through 8 share `channel_perf` and run only when the merged
marketing frame is non-empty (app.py lines 136-227). -/
def sec4to8 (mkt biz : DF) : Except String Unit :=
  if !mkt.isEmptyB then
    channel_perf mkt >>= fun cp =>
    colE cp "spend" >>= fun sL =>
    sumValsE sL >>= fun sTot =>
    colE cp "revenue" >>= fun rL =>
    sumValsE rL >>= fun rTot =>
    (cp.rows.mapM (fun r => divVal (rowGet r "spend") sTot)) >>= fun _ =>
    (cp.rows.mapM (fun r => divVal (rowGet r "revenue") rTot)) >>= fun _ =>
    sec6 cp biz >>= fun _ =>
    sec7 mkt biz >>= fun _ =>
    sec8 mkt biz cp
  else pure ()

/-- The whole dashboard script's computational content, in source order. -/
def script (fs : FS) : Except String Unit :=
  sec1 (load_data fs).2 >>= fun _ =>
  sec2 (load_data fs).1 >>= fun _ =>
  sec3 (load_data fs).1 >>= fun _ =>
  sec4to8 (load_data fs).1 (load_data fs).2

/-- Modelled from the spec: `src/app.py` computes no `ctr` for the channel
aggregate (its `channel_perf` at lines 137-141 derives only `roas`); the
spec's DailyChannelMetric carries `ctr = clicks/impressions`, undefined
(null) when the denominator is zero. -/
def ctr_metric (clicks impressions : ℚ) : Value :=
  if impressions = 0 then .na else .num (clicks / impressions)

/-- Modelled from the spec: `src/app.py` computes no `cpc` either; the
spec's DailyChannelMetric carries `cpc = spend/clicks`, undefined (null)
when the denominator is zero. -/
def cpc_metric (spend clicks : ℚ) : Value :=
  if clicks = 0 then .na else .num (spend / clicks)

/-- Sum, over the rows of a group, of one column read as a rational
(missing cells contribute 0). -/
def groupSumQ (df : DF) (keys : List String) (k : List Value) (src : String) : ℚ :=
  ((df.rows.filter (fun r => decide (keyOf keys r = k))).map
    (fun r => qOf (rowGet r src))).sum

/-- The distinct valid keys of a grouping, in the order `groupAgg` emits. -/
def groupKeys (df : DF) (keys : List String) : List (List Value) :=
  ((df.rows.map (keyOf keys)).filter validKey).dedup

/-- A present marketing file with valid content: rows have columns, the
renamed frame has a date column, and the canonical numeric cells are
numbers (or missing). -/
def wellFormedMkt (df : DF) : Bool :=
  df.rows.isEmpty ||
  (!df.cols.isEmpty && (rename2M df).cols.contains "date" &&
    (rename2M df).rows.all
      (fun r => numOrNa (rowGet r "spend") && numOrNa (rowGet r "revenue")))

/-- A present business file with valid content: canonical numeric cells of
the renamed frame are numbers (or missing). -/
def wellFormedBiz (df : DF) : Bool :=
  df.rows.isEmpty || df.cols.isEmpty ||
  (rename2B df).rows.all (fun r => bizNumCols.all (fun c => numOrNa (rowGet r c)))

/-- One path's state drawn from the marketing input space
{absent, present-malformed, present-valid}. -/
def mktStateOK (o : Option FileContent) : Prop :=
  match o with
  | none => True
  | some .malformedFile => True
  | some (.table df) => wellFormedMkt df = true

/-- One path's state drawn from the business input space. -/
def bizStateOK (o : Option FileContent) : Prop :=
  match o with
  | none => True
  | some .malformedFile => True
  | some (.table df) => wellFormedBiz df = true

/-- Invariant of the merged marketing frame the dashboard relies on. -/
def MOK (m : DF) : Prop :=
  (∀ r ∈ m.rows, numOrNa (rowGet r "spend") = true ∧
    numOrNa (rowGet r "revenue") = true ∧ isStrV (rowGet r "source") = true)
  ∧ (m.rows ≠ [] →
      (m.cols.contains "spend" && m.cols.contains "revenue" &&
       m.cols.contains "source" && m.cols.contains "date") = true)

/-- Invariant of the normalized business frame. -/
def BizOK (b : DF) : Prop :=
  ∀ r ∈ b.rows, ∀ c ∈ bizNumCols, numOrNa (rowGet r c) = true

def filterRows (df : DF) (p : Row → Bool) : DF := ⟨df.cols, df.rows.filter p⟩

/-! ### Generic lemmas -/

lemma mapM_ok {α β : Type} (l : List α) (f : α → Except String β) (g : α → β)
    (h : ∀ x ∈ l, f x = .ok (g x)) : l.mapM f = .ok (l.map g) := by
  induction l with
  | nil => rfl
  | cons a t ih =>
    rw [List.mapM_cons, h a (by simp), List.map_cons,
      ih (fun x hx => h x (List.mem_cons_of_mem a hx))]
    rfl

lemma sum_qOf_filter (l : List Value) :
    ((l.filter (fun v => !(isNa v))).map qOf).sum = (l.map qOf).sum := by
  induction l with
  | nil => rfl
  | cons v t ih =>
    rw [List.filter_cons]
    by_cases h : (!isNa v) = true
    · rw [if_pos h, List.map_cons, List.map_cons, List.sum_cons, List.sum_cons, ih]
    · have hv : v = Value.na := by cases v <;> simp_all [isNa]
      subst hv
      rw [if_neg h, List.map_cons, List.sum_cons, ih]
      simp [qOf]

lemma sumValsE_num (l : List Value) (h : ∀ v ∈ l, numOrNa v = true) :
    sumValsE l = .ok (.num ((l.map qOf).sum)) := by
  unfold sumValsE
  have hall : (l.filter (fun v => !(isNa v))).all isNumV = true := by
    rw [List.all_eq_true]
    intro v hv
    rw [List.mem_filter] at hv
    have h1 := h v hv.1
    have h2 := hv.2
    cases v <;> simp_all [numOrNa, isNumV, isNa]
  simp only [hall, if_true]
  rw [sum_qOf_filter]

lemma groupAgg_eq (df : DF) (keys : List String) (aggs : List (String × String))
    (hk : (keys.all (fun c => df.cols.contains c) &&
           aggs.all (fun a => df.cols.contains a.2)) = true)
    (hcells : ∀ r ∈ df.rows, ∀ a ∈ aggs, numOrNa (rowGet r a.2) = true) :
    groupAgg df keys aggs = .ok (DF.mk (keys ++ aggs.map Prod.fst)
      ((groupKeys df keys).map (fun k =>
        keys.zip k ++ aggs.map (fun a => (a.1, Value.num (groupSumQ df keys k a.2)))))) := by
  unfold groupAgg
  simp only [hk, if_true]
  have houter : (groupKeys df keys).mapM (fun (k : List Value) => do
      let cells ← aggs.mapM (fun (a : String × String) => do
        let v ← sumValsE ((df.rows.filter (fun r => decide (keyOf keys r = k))).map
          (fun r => rowGet r a.2))
        pure (a.1, v))
      pure (keys.zip k ++ cells)) = .ok ((groupKeys df keys).map (fun k =>
        keys.zip k ++ aggs.map (fun a => (a.1, Value.num (groupSumQ df keys k a.2))))) := by
    apply mapM_ok
    intro k _
    have hinner : aggs.mapM (fun (a : String × String) => do
        let v ← sumValsE ((df.rows.filter
          (fun r => decide (keyOf keys r = k))).map (fun r => rowGet r a.2))
        pure (a.1, v)) = .ok (aggs.map (fun a =>
          (a.1, Value.num (groupSumQ df keys k a.2)))) := by
      apply mapM_ok
      intro a ha
      have hsum : sumValsE ((df.rows.filter
          (fun r => decide (keyOf keys r = k))).map (fun r => rowGet r a.2)) =
          .ok (.num (groupSumQ df keys k a.2)) := by
        rw [sumValsE_num]
        · unfold groupSumQ
          rw [List.map_map]
          rfl
        · intro v hv
          rw [List.mem_map] at hv
          obtain ⟨r, hr, rfl⟩ := hv
          exact hcells r (List.mem_of_mem_filter hr) a ha
      rw [hsum]
      rfl
    rw [hinner]
    rfl
  rw [show ((df.rows.map (keyOf keys)).filter validKey).dedup = groupKeys df keys from rfl,
    houter]
  rfl

lemma mem_groupKeys (df : DF) (keys : List String) (k : List Value)
    (h : k ∈ groupKeys df keys) :
    validKey k = true ∧ ∃ r ∈ df.rows, k = keyOf keys r := by
  unfold groupKeys at h
  rw [List.mem_dedup, List.mem_filter] at h
  obtain ⟨h1, h2⟩ := h
  rw [List.mem_map] at h1
  obtain ⟨r, hr, rfl⟩ := h1
  exact ⟨h2, r, hr, rfl⟩

lemma groupKeys_nodup (df : DF) (keys : List String) :
    (groupKeys df keys).Nodup := List.nodup_dedup _

/-! ### Row-level lemmas -/

lemma rowGet_append_no (r1 r2 : Row) (c : String) (h : ∀ p ∈ r1, p.1 ≠ c) :
    rowGet (r1 ++ r2) c = rowGet r2 c := by
  induction r1 with
  | nil => rfl
  | cons p t ih =>
    rw [List.cons_append]
    show (if p.1 = c then p.2 else rowGet (t ++ r2) c) = rowGet r2 c
    rw [if_neg (h p (by simp))]
    exact ih (fun q hq => h q (by simp [hq]))

lemma rowGet_setConstRow_eq (r : Row) (c : String) (v : Value) :
    rowGet (r.filter (fun p => decide (p.1 ≠ c)) ++ [(c, v)]) c = v := by
  have h : ∀ p ∈ r.filter (fun p => decide (p.1 ≠ c)), p.1 ≠ c := by
    intro p hp
    rw [List.mem_filter] at hp
    exact of_decide_eq_true hp.2
  rw [rowGet_append_no _ _ _ h]
  show (if c = c then v else rowGet [] c) = v
  rw [if_pos rfl]

lemma rowGet_setConstRow_ne (r : Row) (c c2 : String) (v : Value) (h : c2 ≠ c) :
    rowGet (r.filter (fun p => decide (p.1 ≠ c)) ++ [(c, v)]) c2 = rowGet r c2 := by
  induction r with
  | nil =>
    show (if c = c2 then v else rowGet [] c2) = rowGet [] c2
    rw [if_neg (fun hc => h hc.symm)]
  | cons p t ih =>
    rw [List.filter_cons]
    by_cases hp : p.1 = c
    · rw [if_neg (by simp [hp])]
      show _ = (if p.1 = c2 then p.2 else rowGet t c2)
      rw [if_neg (by rw [hp]; exact fun hc => h hc.symm)]
      exact ih
    · rw [if_pos (by simp [hp]), List.cons_append]
      show (if p.1 = c2 then p.2 else _) = (if p.1 = c2 then p.2 else rowGet t c2)
      by_cases hpc : p.1 = c2
      · rw [if_pos hpc, if_pos hpc]
      · rw [if_neg hpc, if_neg hpc]
        exact ih

lemma rowGet_mapColRow_ne (r : Row) (c c2 : String) (f : Value → Value) (h : c2 ≠ c) :
    rowGet (r.map (fun p => if p.1 = c then (p.1, f p.2) else p)) c2 = rowGet r c2 := by
  induction r with
  | nil => rfl
  | cons p t ih =>
    rw [List.map_cons]
    by_cases hp : p.1 = c
    · rw [if_pos hp]
      show (if p.1 = c2 then f p.2 else _) = (if p.1 = c2 then p.2 else rowGet t c2)
      rw [if_neg (by rw [hp]; exact fun hc => h hc.symm),
        if_neg (by rw [hp]; exact fun hc => h hc.symm)]
      exact ih
    · rw [if_neg hp]
      show (if p.1 = c2 then p.2 else _) = (if p.1 = c2 then p.2 else rowGet t c2)
      by_cases hpc : p.1 = c2
      · rw [if_pos hpc, if_pos hpc]
      · rw [if_neg hpc, if_neg hpc]
        exact ih

lemma rowGet_mapColRow_eq (r : Row) (c : String) (f : Value → Value)
    (hf : f .na = .na) :
    rowGet (r.map (fun p => if p.1 = c then (p.1, f p.2) else p)) c = f (rowGet r c) := by
  induction r with
  | nil => exact hf.symm
  | cons p t ih =>
    rw [List.map_cons]
    by_cases hp : p.1 = c
    · rw [if_pos hp]
      show (if p.1 = c then f p.2 else _) = f (if p.1 = c then p.2 else rowGet t c)
      rw [if_pos hp, if_pos hp]
    · rw [if_neg hp]
      show (if p.1 = c then p.2 else _) = f (if p.1 = c then p.2 else rowGet t c)
      rw [if_neg hp, if_neg hp]
      exact ih

/-! ### Cell-predicate preservation through the normalizer's stages -/

/-- Every row of `d` satisfies `P` at column `c`. -/
def cellP (P : Value → Bool) (c : String) (d : DF) : Prop :=
  ∀ r ∈ d.rows, P (rowGet r c) = true

lemma cellP_setConst_ne (P : Value → Bool) (d : DF) (c c2 : String) (v : Value)
    (hne : c2 ≠ c) (h : cellP P c2 d) : cellP P c2 (setConst d c v) := by
  intro r hr
  unfold setConst at hr
  rw [List.mem_map] at hr
  obtain ⟨r0, hr0, rfl⟩ := hr
  rw [rowGet_setConstRow_ne _ _ _ _ hne]
  exact h r0 hr0

lemma cellP_setConst_eq (P : Value → Bool) (d : DF) (c : String) (v : Value)
    (hv : P v = true) : cellP P c (setConst d c v) := by
  intro r hr
  unfold setConst at hr
  rw [List.mem_map] at hr
  obtain ⟨r0, hr0, rfl⟩ := hr
  rw [rowGet_setConstRow_eq]
  exact hv

lemma cellP_fillF (P : Value → Bool) (d : DF) (c c2 : String)
    (hP0 : P (.num 0) = true) (h : cellP P c2 d) : cellP P c2 (fillF d c) := by
  unfold fillF
  by_cases hc : d.cols.contains c
  · rwa [if_pos hc]
  · rw [if_neg hc]
    by_cases he : c2 = c
    · subst he
      exact cellP_setConst_eq P d c2 _ hP0
    · exact cellP_setConst_ne P d c c2 _ he h

lemma cellP_fillFold (P : Value → Bool) (cs : List String) (d : DF) (c2 : String)
    (hP0 : P (.num 0) = true) (h : cellP P c2 d) : cellP P c2 (cs.foldl fillF d) := by
  induction cs generalizing d with
  | nil => exact h
  | cons c t ih => exact ih (fillF d c) (cellP_fillF P d c c2 hP0 h)

lemma cellP_mapCol_ne (P : Value → Bool) (d : DF) (c c2 : String) (f : Value → Value)
    (hne : c2 ≠ c) (h : cellP P c2 d) : cellP P c2 (mapCol d c f) := by
  intro r hr
  unfold mapCol at hr
  rw [List.mem_map] at hr
  obtain ⟨r0, hr0, rfl⟩ := hr
  rw [rowGet_mapColRow_ne _ _ _ _ hne]
  exact h r0 hr0

/-! ### Column-presence lemmas -/

lemma contains_setConst_self (d : DF) (c : String) (v : Value) :
    (setConst d c v).cols.contains c = true := by
  unfold setConst
  by_cases h : c ∈ d.cols <;> simp [h, List.elem_eq_mem]

lemma contains_setConst_mono (d : DF) (c c2 : String) (v : Value)
    (h : d.cols.contains c2 = true) : (setConst d c v).cols.contains c2 = true := by
  have h2 : c2 ∈ d.cols := by simpa [List.elem_eq_mem] using h
  unfold setConst
  by_cases hc : c ∈ d.cols <;> simp [hc, h2, List.elem_eq_mem]

lemma contains_fillF_self (d : DF) (c : String) :
    (fillF d c).cols.contains c = true := by
  unfold fillF
  by_cases h : d.cols.contains c
  · rwa [if_pos h]
  · rw [if_neg h]
    exact contains_setConst_self d c _

lemma contains_fillF_mono (d : DF) (c c2 : String)
    (h : d.cols.contains c2 = true) : (fillF d c).cols.contains c2 = true := by
  unfold fillF
  by_cases hc : d.cols.contains c
  · rwa [if_pos hc]
  · rw [if_neg hc]
    exact contains_setConst_mono d c c2 _ h

lemma contains_fillFold_mono (cs : List String) (d : DF) (c2 : String)
    (h : d.cols.contains c2 = true) : (cs.foldl fillF d).cols.contains c2 = true := by
  induction cs generalizing d with
  | nil => exact h
  | cons c t ih => exact ih (fillF d c) (contains_fillF_mono d c c2 h)

lemma contains_fillFold_self (cs : List String) (d : DF) (c : String)
    (h : c ∈ cs) : (cs.foldl fillF d).cols.contains c = true := by
  induction cs generalizing d with
  | nil => cases h
  | cons c0 t ih =>
    rw [List.foldl_cons]
    rcases List.mem_cons.mp h with h0 | h0
    · subst h0
      exact contains_fillFold_mono t (fillF d c) c (contains_fillF_self d c)
    · exact ih (fillF d c0) h0

lemma mapCol_cols (d : DF) (c : String) (f : Value → Value) :
    (mapCol d c f).cols = d.cols := rfl

lemma contains_unionCols (a b : List String) (c : String) :
    (unionCols a b).contains c = (a.contains c || b.contains c) := by
  unfold unionCols
  by_cases h : c ∈ a
  · simp [h, List.elem_eq_mem]
  · by_cases hb : c ∈ b <;> simp [h, hb, List.elem_eq_mem]

/-! ### Normalizer invariants -/

lemma MOK_of_rows_nil (d : DF) (h : d.rows = []) : MOK d := by
  constructor
  · intro r hr
    rw [h] at hr
    cases hr
  · intro hne
    exact absurd h hne

lemma norm_MOK (df : DF) (s : String) (h : wellFormedMkt df = true) : MOK (norm df s) := by
  unfold wellFormedMkt at h
  rw [Bool.or_eq_true] at h
  by_cases he : df.isEmptyB = true
  · have hrows : df.rows = [] := by
      rcases h with h | h
      · simpa using h
      · rw [Bool.and_eq_true, Bool.and_eq_true] at h
        unfold DF.isEmptyB at he
        rw [Bool.or_eq_true] at he
        rcases he with he | he
        · simpa using he
        · exact absurd (by simpa using he) (by simpa using h.1.1)
    have hn : norm df s = df := by
      unfold norm
      rw [if_pos he]
    rw [hn]
    exact MOK_of_rows_nil df hrows
  · have h3 : (rename2M df).rows.all
        (fun r => numOrNa (rowGet r "spend") && numOrNa (rowGet r "revenue")) = true := by
      rcases h with h | h
      · exfalso
        apply he
        unfold DF.isEmptyB
        simp [(by simpa using h : df.rows = [])]
      · rw [Bool.and_eq_true, Bool.and_eq_true] at h
        exact h.2
    have h2 : (rename2M df).cols.contains "date" = true := by
      rcases h with h | h
      · exfalso
        apply he
        unfold DF.isEmptyB
        simp [(by simpa using h : df.rows = [])]
      · rw [Bool.and_eq_true, Bool.and_eq_true] at h
        exact h.1.2
    have hres : norm df s =
        (if (setConst (mktNumCols.foldl fillF (rename2M df)) "source" (.str s)).cols.contains
            "date" = true then
          mapCol (setConst (mktNumCols.foldl fillF (rename2M df)) "source" (.str s)) "date"
            toDatetime
        else setConst (mktNumCols.foldl fillF (rename2M df)) "source" (.str s)) := by
      unfold norm
      rw [if_neg he]
    have hd4 : (setConst (mktNumCols.foldl fillF (rename2M df)) "source"
        (.str s)).cols.contains "date" = true :=
      contains_setConst_mono _ _ _ _ (contains_fillFold_mono _ _ _ h2)
    rw [hres, if_pos hd4]
    have cpS : cellP numOrNa "spend" (rename2M df) := by
      intro r hr
      have := List.all_eq_true.mp h3 r hr
      rw [Bool.and_eq_true] at this
      exact this.1
    have cpR : cellP numOrNa "revenue" (rename2M df) := by
      intro r hr
      have := List.all_eq_true.mp h3 r hr
      rw [Bool.and_eq_true] at this
      exact this.2
    have cpS4 : cellP numOrNa "spend"
        (mapCol (setConst (mktNumCols.foldl fillF (rename2M df)) "source" (.str s)) "date"
          toDatetime) :=
      cellP_mapCol_ne _ _ _ _ _ (by decide)
        (cellP_setConst_ne _ _ _ _ _ (by decide) (cellP_fillFold _ _ _ _ rfl cpS))
    have cpR4 : cellP numOrNa "revenue"
        (mapCol (setConst (mktNumCols.foldl fillF (rename2M df)) "source" (.str s)) "date"
          toDatetime) :=
      cellP_mapCol_ne _ _ _ _ _ (by decide)
        (cellP_setConst_ne _ _ _ _ _ (by decide) (cellP_fillFold _ _ _ _ rfl cpR))
    have cpSrc : cellP isStrV "source"
        (mapCol (setConst (mktNumCols.foldl fillF (rename2M df)) "source" (.str s)) "date"
          toDatetime) :=
      cellP_mapCol_ne _ _ _ _ _ (by decide) (cellP_setConst_eq _ _ _ _ rfl)
    constructor
    · intro r hr
      exact ⟨cpS4 r hr, cpR4 r hr, cpSrc r hr⟩
    · intro _
      have hsp : (setConst (mktNumCols.foldl fillF (rename2M df)) "source"
          (.str s)).cols.contains "spend" = true :=
        contains_setConst_mono _ _ _ _
          (contains_fillFold_self mktNumCols (rename2M df) "spend" (by simp [mktNumCols]))
      have hrv : (setConst (mktNumCols.foldl fillF (rename2M df)) "source"
          (.str s)).cols.contains "revenue" = true :=
        contains_setConst_mono _ _ _ _
          (contains_fillFold_self mktNumCols (rename2M df) "revenue" (by simp [mktNumCols]))
      have hso : (setConst (mktNumCols.foldl fillF (rename2M df)) "source"
          (.str s)).cols.contains "source" = true :=
        contains_setConst_self _ _ _
      rw [show (mapCol (setConst (mktNumCols.foldl fillF (rename2M df)) "source" (.str s))
          "date" toDatetime).cols =
          (setConst (mktNumCols.foldl fillF (rename2M df)) "source" (.str s)).cols from rfl]
      rw [Bool.and_eq_true, Bool.and_eq_true, Bool.and_eq_true]
      exact ⟨⟨⟨hsp, hrv⟩, hso⟩, hd4⟩

lemma BizOK_branch (df : DF) (h : wellFormedBiz df = true) :
    (if df.isEmptyB then df else normBiz df).isEmptyB = true ∨
      BizOK (if df.isEmptyB then df else normBiz df) := by
  by_cases he : df.isEmptyB = true
  · left
    rw [if_pos he]
    exact he
  · right
    rw [if_neg he]
    unfold wellFormedBiz at h
    rw [Bool.or_eq_true, Bool.or_eq_true] at h
    have h3 : (rename2B df).rows.all
        (fun r => bizNumCols.all (fun c => numOrNa (rowGet r c))) = true := by
      rcases h with (h | h) | h
      · exfalso
        apply he
        unfold DF.isEmptyB
        simp [(by simpa using h : df.rows = [])]
      · exfalso
        apply he
        unfold DF.isEmptyB
        simp [(by simpa using h : df.cols = [])]
      · exact h
    have hcells : ∀ r ∈ (rename2B df).rows, ∀ c ∈ bizNumCols,
        numOrNa (rowGet r c) = true := by
      intro r hr c hc
      have := List.all_eq_true.mp (List.all_eq_true.mp h3 r hr) c hc
      exact this
    intro r hr c hc
    have hnd : c ≠ "date" := by
      simp only [bizNumCols, List.mem_cons, List.not_mem_nil, or_false] at hc
      rcases hc with rfl | rfl | rfl | rfl | rfl <;> decide
    unfold normBiz at hr
    by_cases hdc : (rename2B df).cols.contains "date" = true
    · rw [if_pos hdc] at hr
      unfold mapCol at hr
      rw [List.mem_map] at hr
      obtain ⟨r0, hr0, rfl⟩ := hr
      rw [rowGet_mapColRow_ne _ _ _ _ hnd]
      exact hcells r0 hr0 c hc
    · rw [if_neg hdc] at hr
      exact hcells r hr c hc

lemma concatDF3_rows (a b c : DF) :
    (concatDF [a, b, c]).rows = a.rows ++ b.rows ++ c.rows := by
  simp [concatDF]

lemma concatDF3_MOK (a b c : DF) (ha : MOK a) (hb : MOK b) (hc : MOK c) :
    MOK (concatDF [a, b, c]) := by
  constructor
  · intro r hr
    rw [concatDF3_rows, List.mem_append, List.mem_append] at hr
    rcases hr with (hr | hr) | hr
    · exact ha.1 r hr
    · exact hb.1 r hr
    · exact hc.1 r hr
  · intro hne
    have hcols : ∀ x : String, (concatDF [a, b, c]).cols.contains x =
        (a.cols.contains x || b.cols.contains x || c.cols.contains x) := by
      intro x
      show (unionCols (unionCols (unionCols [] a.cols) b.cols) c.cols).contains x = _
      rw [contains_unionCols, contains_unionCols, contains_unionCols]
      rfl
    have hsome : a.rows ≠ [] ∨ b.rows ≠ [] ∨ c.rows ≠ [] := by
      by_contra hno
      push_neg at hno
      apply hne
      rw [concatDF3_rows, hno.1, hno.2.1, hno.2.2]
      rfl
    have key : ∀ d : DF, MOK d → d.rows ≠ [] →
        ((concatDF [a, b, c]).cols.contains "spend" &&
         (concatDF [a, b, c]).cols.contains "revenue" &&
         (concatDF [a, b, c]).cols.contains "source" &&
         (concatDF [a, b, c]).cols.contains "date") = true → True := fun _ _ _ _ => trivial
    clear key
    rw [Bool.and_eq_true, Bool.and_eq_true, Bool.and_eq_true]
    rcases hsome with hs | hs | hs
    · have h4 := ha.2 hs
      rw [Bool.and_eq_true, Bool.and_eq_true, Bool.and_eq_true] at h4
      simp only [List.elem_eq_mem, decide_eq_true_eq] at h4
      refine ⟨⟨⟨?_, ?_⟩, ?_⟩, ?_⟩ <;> rw [hcols] <;>
        simp [List.elem_eq_mem, h4.1.1.1, h4.1.1.2, h4.1.2, h4.2]
    · have h4 := hb.2 hs
      rw [Bool.and_eq_true, Bool.and_eq_true, Bool.and_eq_true] at h4
      simp only [List.elem_eq_mem, decide_eq_true_eq] at h4
      refine ⟨⟨⟨?_, ?_⟩, ?_⟩, ?_⟩ <;> rw [hcols] <;>
        simp [List.elem_eq_mem, h4.1.1.1, h4.1.1.2, h4.1.2, h4.2]
    · have h4 := hc.2 hs
      rw [Bool.and_eq_true, Bool.and_eq_true, Bool.and_eq_true] at h4
      simp only [List.elem_eq_mem, decide_eq_true_eq] at h4
      refine ⟨⟨⟨?_, ?_⟩, ?_⟩, ?_⟩ <;> rw [hcols] <;>
        simp [List.elem_eq_mem, h4.1.1.1, h4.1.1.2, h4.1.2, h4.2]


/-! ### Small structural lemmas for the loader -/

lemma norm_emptyDF (s : String) : norm emptyDF s = emptyDF := rfl

lemma concat3_drop1 (b c : DF) : concatDF [emptyDF, b, c] = concatDF [b, c] := rfl

lemma concat3_drop2 (a c : DF) : concatDF [a, emptyDF, c] = concatDF [a, c] := by
  show DF.mk (unionCols (unionCols (unionCols [] a.cols) []) c.cols)
      ((([] ++ a.rows) ++ []) ++ c.rows) =
    DF.mk (unionCols (unionCols [] a.cols) c.cols) (([] ++ a.rows) ++ c.rows)
  simp [unionCols]

lemma concat3_drop3 (a b : DF) : concatDF [a, b, emptyDF] = concatDF [a, b] := by
  show DF.mk (unionCols (unionCols (unionCols [] a.cols) b.cols) [])
      (((([] ++ a.rows) ++ b.rows) ++ [])) =
    DF.mk (unionCols (unionCols [] a.cols) b.cols) (([] ++ a.rows) ++ b.rows)
  simp [unionCols]

/-! ## Claim C6 -/

/-- C6: for every source whose file is missing or fails to parse as tabular
data, `safe_read` returns the empty table (zero rows, no defined columns)
without raising, and that empty table has zero effect downstream: the merged
marketing frame equals the concatenation of the remaining sources alone (so
every aggregate computed from it is unchanged), and a missing business file
yields the empty business frame. -/
theorem C6_missing_source_noop (fs : FS) :
    (∀ p, (fsGet fs p = none ∨ fsGet fs p = some .malformedFile) →
      safe_read fs p = emptyDF) ∧
    ((fsGet fs "Facebook.csv" = none ∨ fsGet fs "Facebook.csv" = some .malformedFile) →
      (load_data fs).1 = concatDF [norm (safe_read fs "data/Google.csv") "Google",
        norm (safe_read fs "data/TikTok.csv") "TikTok"]) ∧
    ((fsGet fs "data/Google.csv" = none ∨
        fsGet fs "data/Google.csv" = some .malformedFile) →
      (load_data fs).1 = concatDF [norm (safe_read fs "Facebook.csv") "Facebook",
        norm (safe_read fs "data/TikTok.csv") "TikTok"]) ∧
    ((fsGet fs "data/TikTok.csv" = none ∨
        fsGet fs "data/TikTok.csv" = some .malformedFile) →
      (load_data fs).1 = concatDF [norm (safe_read fs "Facebook.csv") "Facebook",
        norm (safe_read fs "data/Google.csv") "Google"]) ∧
    ((fsGet fs "business.csv" = none ∨ fsGet fs "business.csv" = some .malformedFile) →
      (load_data fs).2 = emptyDF) := by
  have hsr : ∀ p, (fsGet fs p = none ∨ fsGet fs p = some .malformedFile) →
      safe_read fs p = emptyDF := by
    intro p h
    unfold safe_read
    rcases h with h | h <;> rw [h]
  refine ⟨hsr, ?_, ?_, ?_, ?_⟩
  · intro h
    show concatDF [norm (safe_read fs "Facebook.csv") "Facebook",
      norm (safe_read fs "data/Google.csv") "Google",
      norm (safe_read fs "data/TikTok.csv") "TikTok"] = _
    rw [hsr _ h, norm_emptyDF, concat3_drop1]
  · intro h
    show concatDF [norm (safe_read fs "Facebook.csv") "Facebook",
      norm (safe_read fs "data/Google.csv") "Google",
      norm (safe_read fs "data/TikTok.csv") "TikTok"] = _
    rw [hsr _ h, norm_emptyDF, concat3_drop2]
  · intro h
    show concatDF [norm (safe_read fs "Facebook.csv") "Facebook",
      norm (safe_read fs "data/Google.csv") "Google",
      norm (safe_read fs "data/TikTok.csv") "TikTok"] = _
    rw [hsr _ h, norm_emptyDF, concat3_drop3]
  · intro h
    show (if (safe_read fs "business.csv").isEmptyB then safe_read fs "business.csv"
      else normBiz (safe_read fs "business.csv")) = emptyDF
    rw [hsr _ h]
    rfl

/-- C6 witness: with no files on disk at all, every source reads as the
empty frame and the merged marketing frame is that of the remaining
sources. -/
theorem C6_missing_source_noop_witness :
    safe_read [] "Facebook.csv" = emptyDF ∧
    (load_data []).1 = concatDF [norm (safe_read [] "data/Google.csv") "Google",
      norm (safe_read [] "data/TikTok.csv") "TikTok"] ∧
    (load_data []).2 = emptyDF :=
  ⟨(C6_missing_source_noop []).1 "Facebook.csv" (Or.inl rfl),
   (C6_missing_source_noop []).2.1 (Or.inl rfl),
   (C6_missing_source_noop []).2.2.2.2 (Or.inl rfl)⟩

/-! ## Claim C9 -/

/-- C9 counterexample: the claim says loading tries the canonical filename
and then a case-insensitive fallback (e.g. "Facebook.csv" then
"facebook.csv").  With only "facebook.csv" on disk, holding a parseable
one-row table, the claimed fallback would load it; the code reads the single
fixed path "Facebook.csv", finds nothing, and the merged marketing frame
comes out empty. -/
theorem C9_counterexample :
    fsGet [("facebook.csv", FileContent.table (DF.mk ["date", "spend"]
        [[("date", .str "2024-01-01"), ("spend", .num 100)]]))] "facebook.csv" =
      some (FileContent.table (DF.mk ["date", "spend"]
        [[("date", .str "2024-01-01"), ("spend", .num 100)]])) ∧
    safe_read [("facebook.csv", FileContent.table (DF.mk ["date", "spend"]
        [[("date", .str "2024-01-01"), ("spend", .num 100)]]))] "Facebook.csv" = emptyDF ∧
    (load_data [("facebook.csv", FileContent.table (DF.mk ["date", "spend"]
        [[("date", .str "2024-01-01"), ("spend", .num 100)]]))]).1.rows = [] := by
  refine ⟨rfl, rfl, rfl⟩

/-- C9 (amended): each source role is read from exactly one fixed path
("Facebook.csv", "data/Google.csv", "data/TikTok.csv", "business.csv") with
no fallback: the loader's output depends only on those four paths, and when
the canonical path is absent the source contributes the empty table. -/
theorem C9_single_fixed_path (fs fs2 : FS)
    (h : ∀ p ∈ (["Facebook.csv", "data/Google.csv", "data/TikTok.csv",
      "business.csv"] : List String), fsGet fs p = fsGet fs2 p) :
    load_data fs = load_data fs2 ∧
    (∀ p, fsGet fs p = none → safe_read fs p = emptyDF) := by
  constructor
  · have h1 := h "Facebook.csv" (by simp)
    have h2 := h "data/Google.csv" (by simp)
    have h3 := h "data/TikTok.csv" (by simp)
    have h4 := h "business.csv" (by simp)
    unfold load_data safe_read
    rw [h1, h2, h3, h4]
  · intro p hp
    unfold safe_read
    rw [hp]

/-- C9 witness: a file system holding only an unreadable file at an
unrelated path loads identically to an empty file system. -/
theorem C9_single_fixed_path_witness :
    load_data [("other.csv", FileContent.malformedFile)] = load_data [] ∧
    safe_read [("other.csv", FileContent.malformedFile)] "Facebook.csv" = emptyDF := by
  have h := C9_single_fixed_path [("other.csv", FileContent.malformedFile)] []
    (by intro p hp; fin_cases hp <;> rfl)
  exact ⟨h.1, h.2 "Facebook.csv" rfl⟩


/-! ## Claim C5 -/

lemma getElem?_map_rowGet (rows : List Row) (f : Row → Row) (c : String)
    (h : ∀ r ∈ rows, rowGet (f r) c = rowGet r c) (i : ℕ) :
    ((rows.map f)[i]?.map (fun r => rowGet r c)) = (rows[i]?.map (fun r => rowGet r c)) := by
  rw [List.getElem?_map]
  cases he : rows[i]? with
  | none => rfl
  | some r =>
    have hr : r ∈ rows := List.getElem?_mem he
    simp [h r hr]

lemma fillFold_get (cs : List String) (d : DF) (c : String)
    (hc : d.cols.contains c = true) (i : ℕ) :
    ((cs.foldl fillF d).rows[i]?.map (fun r => rowGet r c)) =
      (d.rows[i]?.map (fun r => rowGet r c)) := by
  induction cs generalizing d with
  | nil => rfl
  | cons c0 t ih =>
    rw [List.foldl_cons, ih (fillF d c0) (contains_fillF_mono d c0 c hc)]
    unfold fillF
    by_cases h0 : d.cols.contains c0 = true
    · rw [if_pos h0]
    · rw [if_neg h0]
      have hne : c ≠ c0 := by
        rintro rfl
        rw [hc] at h0
        exact h0 rfl
      exact getElem?_map_rowGet d.rows _ c
        (fun r _ => rowGet_setConstRow_ne r c0 c _ hne) i

/-- C5 counterexample: the claim says every canonical numeric value is
parsed as a decimal and unparsable values coerce to 0.  Normalizing a
Facebook row whose spend cell is the non-numeric string "abc" leaves the
string untouched: no numeric coercion exists in `norm`. -/
theorem C5_counterexample :
    ((norm (DF.mk ["date", "spend"]
        [[("date", Value.str "2024-01-01"), ("spend", Value.str "abc")]]) "Facebook").rows.map
      (fun r => rowGet r "spend")) = [Value.str "abc"] ∧
    Value.str "abc" ≠ Value.num 0 := by
  exact ⟨rfl, by decide⟩

/-- C5 (amended): `norm` performs no numeric parsing at all on values that
are present: for every canonical numeric column present in the renamed
source frame, every cell passes through normalization unchanged (only
whole-column absence is zero-filled; a non-numeric value survives into the
normalized frame and flows into downstream sums). -/
theorem C5_no_value_coercion (df : DF) (s c : String) (hc : c ∈ mktNumCols)
    (hcol : (rename2M df).cols.contains c = true) (he : df.isEmptyB = false) (i : ℕ) :
    ((norm df s).rows[i]?.map (fun r => rowGet r c)) =
      ((rename2M df).rows[i]?.map (fun r => rowGet r c)) := by
  have hnsrc : c ≠ "source" := by
    simp only [mktNumCols, List.mem_cons, List.not_mem_nil, or_false] at hc
    rcases hc with rfl | rfl | rfl | rfl <;> decide
  have hndate : c ≠ "date" := by
    simp only [mktNumCols, List.mem_cons, List.not_mem_nil, or_false] at hc
    rcases hc with rfl | rfl | rfl | rfl <;> decide
  have hstep : ∀ j : ℕ, ((setConst (mktNumCols.foldl fillF (rename2M df)) "source"
      (.str s)).rows[j]?.map (fun r => rowGet r c)) =
      ((rename2M df).rows[j]?.map (fun r => rowGet r c)) := by
    intro j
    have h1 : ((setConst (mktNumCols.foldl fillF (rename2M df)) "source"
        (.str s)).rows[j]?.map (fun r => rowGet r c)) =
        ((mktNumCols.foldl fillF (rename2M df)).rows[j]?.map (fun r => rowGet r c)) :=
      getElem?_map_rowGet _ _ c
        (fun r _ => rowGet_setConstRow_ne r "source" c _ hnsrc) j
    rw [h1, fillFold_get mktNumCols (rename2M df) c hcol]
  have hres : norm df s =
      (if (setConst (mktNumCols.foldl fillF (rename2M df)) "source" (.str s)).cols.contains
          "date" = true then
        mapCol (setConst (mktNumCols.foldl fillF (rename2M df)) "source" (.str s)) "date"
          toDatetime
      else setConst (mktNumCols.foldl fillF (rename2M df)) "source" (.str s)) := by
    unfold norm
    rw [if_neg (by rw [he]; exact Bool.false_ne_true)]
  rw [hres]
  by_cases hd : (setConst (mktNumCols.foldl fillF (rename2M df)) "source"
      (.str s)).cols.contains "date" = true
  · rw [if_pos hd]
    have h2 : ((mapCol (setConst (mktNumCols.foldl fillF (rename2M df)) "source" (.str s))
        "date" toDatetime).rows[i]?.map (fun r => rowGet r c)) =
        ((setConst (mktNumCols.foldl fillF (rename2M df)) "source"
          (.str s)).rows[i]?.map (fun r => rowGet r c)) :=
      getElem?_map_rowGet _ _ c
        (fun r _ => rowGet_mapColRow_ne r "date" c _ hndate) i
    rw [h2, hstep]
  · rw [if_neg hd, hstep]

/-- C5 witness: instantiating the no-coercion theorem on the
counterexample's frame, the string spend cell is preserved at row 0. -/
theorem C5_no_value_coercion_witness :
    "spend" ∈ mktNumCols ∧
    (rename2M (DF.mk ["date", "spend"]
      [[("date", Value.str "2024-01-01"), ("spend", Value.str "abc")]])).cols.contains
        "spend" = true ∧
    (DF.mk ["date", "spend"]
      [[("date", Value.str "2024-01-01"), ("spend", Value.str "abc")]]).isEmptyB = false ∧
    ((norm (DF.mk ["date", "spend"]
        [[("date", Value.str "2024-01-01"), ("spend", Value.str "abc")]]) "Facebook").rows[0]?.map
      (fun r => rowGet r "spend")) =
      ((rename2M (DF.mk ["date", "spend"]
        [[("date", Value.str "2024-01-01"), ("spend", Value.str "abc")]])).rows[0]?.map
      (fun r => rowGet r "spend")) :=
  ⟨by decide, by decide, by decide,
   C5_no_value_coercion _ "Facebook" "spend" (by decide) (by decide) (by decide) 0⟩

/-! ## Claim C4 -/

lemma contains_fillF_of_ne (d : DF) (c c0 : String) (hne : c ≠ c0)
    (h : d.cols.contains c = false) : (fillF d c0).cols.contains c = false := by
  unfold fillF
  by_cases hc0 : d.cols.contains c0 = true
  · rw [if_pos hc0]
    exact h
  · rw [if_neg hc0]
    unfold setConst
    rw [if_neg hc0]
    simp only [List.elem_eq_mem, decide_eq_true_eq, decide_eq_false_iff_not] at h ⊢
    simp [h, hne]

lemma cellP_zero_fillFold (cs : List String) (c : String) :
    ∀ d : DF, c ∈ cs → d.cols.contains c = false →
      cellP (fun v => decide (v = Value.num 0)) c (cs.foldl fillF d) := by
  induction cs with
  | nil =>
    intro d h _
    cases h
  | cons c0 t ih =>
    intro d hcs hnc
    rw [List.foldl_cons]
    by_cases h0 : c0 = c
    · subst h0
      have hf : fillF d c0 = setConst d c0 (.num 0) := by
        unfold fillF
        rw [if_neg (by rw [hnc]; exact Bool.false_ne_true)]
      rw [hf]
      exact cellP_fillFold _ t _ _ (by decide)
        (cellP_setConst_eq _ d c0 _ (by decide))
    · rcases List.mem_cons.mp hcs with h | h
      · exact absurd h.symm h0
      · exact ih (fillF d c0) h (contains_fillF_of_ne d c c0 (fun he => h0 he.symm) hnc)

/-- C4 counterexample: the claim says the zero-fill invariant holds for the
business table too.  Loading a business file that lacks every order column
leaves "orders" absent from the normalized business frame, and its cells
read back as missing, not 0: `load_data` never zero-fills business columns. -/
theorem C4_counterexample :
    (load_data [("business.csv", FileContent.table (DF.mk ["date", "total revenue"]
        [[("date", Value.str "2024-01-05"), ("total revenue", Value.num 500)]]))]).2.rows ≠
      [] ∧
    (load_data [("business.csv", FileContent.table (DF.mk ["date", "total revenue"]
        [[("date", Value.str "2024-01-05"),
          ("total revenue", Value.num 500)]]))]).2.cols.contains "orders" = false ∧
    ((load_data [("business.csv", FileContent.table (DF.mk ["date", "total revenue"]
        [[("date", Value.str "2024-01-05"), ("total revenue", Value.num 500)]]))]).2.rows.map
      (fun r => rowGet r "orders")) = [Value.na] ∧
    Value.na ≠ Value.num 0 := by
  exact ⟨by decide, by decide, by decide, by decide⟩

/-- C4 (amended): the zero-fill invariant holds for marketing tables only:
after `norm`, every canonical marketing numeric column is present, and if it
was absent from the renamed source then every row carries the synthesized
value 0.  (The business table gets no such fill; see the counterexample.) -/
theorem C4_marketing_zero_fill (df : DF) (s c : String) (hc : c ∈ mktNumCols)
    (he : df.isEmptyB = false) :
    (norm df s).cols.contains c = true ∧
    ((rename2M df).cols.contains c = false →
      ∀ r ∈ (norm df s).rows, rowGet r c = Value.num 0) := by
  have hnsrc : c ≠ "source" := by
    simp only [mktNumCols, List.mem_cons, List.not_mem_nil, or_false] at hc
    rcases hc with rfl | rfl | rfl | rfl <;> decide
  have hndate : c ≠ "date" := by
    simp only [mktNumCols, List.mem_cons, List.not_mem_nil, or_false] at hc
    rcases hc with rfl | rfl | rfl | rfl <;> decide
  have hres : norm df s =
      (if (setConst (mktNumCols.foldl fillF (rename2M df)) "source" (.str s)).cols.contains
          "date" = true then
        mapCol (setConst (mktNumCols.foldl fillF (rename2M df)) "source" (.str s)) "date"
          toDatetime
      else setConst (mktNumCols.foldl fillF (rename2M df)) "source" (.str s)) := by
    unfold norm
    rw [if_neg (by rw [he]; exact Bool.false_ne_true)]
  have hcont : (setConst (mktNumCols.foldl fillF (rename2M df)) "source"
      (.str s)).cols.contains c = true :=
    contains_setConst_mono _ _ _ _ (contains_fillFold_self mktNumCols (rename2M df) c hc)
  constructor
  · rw [hres]
    by_cases hd : (setConst (mktNumCols.foldl fillF (rename2M df)) "source"
        (.str s)).cols.contains "date" = true
    · rw [if_pos hd]
      exact hcont
    · rw [if_neg hd]
      exact hcont
  · intro habs r hr
    have hcp : cellP (fun v => decide (v = Value.num 0)) c (norm df s) := by
      rw [hres]
      have h3 : cellP (fun v => decide (v = Value.num 0)) c
          (mktNumCols.foldl fillF (rename2M df)) :=
        cellP_zero_fillFold mktNumCols c (rename2M df) hc habs
      have h4 : cellP (fun v => decide (v = Value.num 0)) c
          (setConst (mktNumCols.foldl fillF (rename2M df)) "source" (.str s)) :=
        cellP_setConst_ne _ _ _ _ _ hnsrc h3
      by_cases hd : (setConst (mktNumCols.foldl fillF (rename2M df)) "source"
          (.str s)).cols.contains "date" = true
      · rw [if_pos hd]
        exact cellP_mapCol_ne _ _ _ _ _ hndate h4
      · rw [if_neg hd]
        exact h4
    exact of_decide_eq_true (hcp r hr)

/-- C4 witness: a Facebook frame lacking the "clicks" column gets it
synthesized with value 0 on its row. -/
theorem C4_marketing_zero_fill_witness :
    ("clicks" ∈ mktNumCols ∧
      (DF.mk ["date", "spend"]
        [[("date", Value.str "2024-01-01"), ("spend", Value.num 7)]]).isEmptyB = false) ∧
    (norm (DF.mk ["date", "spend"]
      [[("date", Value.str "2024-01-01"), ("spend", Value.num 7)]]) "Facebook").cols.contains
        "clicks" = true ∧
    (∀ r ∈ (norm (DF.mk ["date", "spend"]
        [[("date", Value.str "2024-01-01"), ("spend", Value.num 7)]]) "Facebook").rows,
      rowGet r "clicks" = Value.num 0) :=
  ⟨⟨by decide, by decide⟩,
   (C4_marketing_zero_fill _ "Facebook" "clicks" (by decide) (by decide)).1,
   (C4_marketing_zero_fill _ "Facebook" "clicks" (by decide) (by decide)).2 (by decide)⟩


/-! ## Claim C1 -/

lemma bind_ok {α β : Type} (a : α) (f : α → Except String β) :
    ((Except.ok a : Except String α) >>= f) = f a := rfl

lemma isNumV_num (v : Value) (h : isNumV v = true) : ∃ q, v = .num q := by
  cases v <;> simp_all [isNumV]

lemma numOrNa_cases (v : Value) (h : numOrNa v = true) :
    (∃ q, v = .num q) ∨ v = .na := by
  cases v <;> simp_all [numOrNa]

lemma groupKeys_src_shape (mkt : DF) (k : List Value)
    (hk : k ∈ groupKeys mkt ["source"]) : ∃ x, k = [x] ∧ isNa x = false := by
  obtain ⟨hv, r, _, rfl⟩ := mem_groupKeys mkt ["source"] k hk
  refine ⟨rowGet r "source", rfl, ?_⟩
  unfold validKey at hv
  simp only [keyOf, List.map_cons, List.map_nil, List.all_cons, List.all_nil,
    Bool.and_true] at hv
  simpa using hv

/-- The roas assignment of app.py line 141 applied to one aggregated row. -/
def roasRow (r : Row) : Row :=
  r ++ [("roas",
    if rowGet r "spend" = Value.num 0 then Value.na
    else Value.num (qOf (rowGet r "revenue") / qOf (rowGet r "spend")))]

/-- The aggregated channel row `groupAgg` produces for one source key. -/
def srcAggRow (mkt : DF) (k : List Value) : Row :=
  ["source"].zip k ++
    ([("spend", "spend"), ("revenue", "revenue")] : List (String × String)).map
      (fun a => (a.1, Value.num (groupSumQ mkt ["source"] k a.2)))

lemma roasRow_srcAggRow (mkt : DF) (x : Value) :
    roasRow (srcAggRow mkt [x]) =
      [("source", x), ("spend", Value.num (groupSumQ mkt ["source"] [x] "spend")),
       ("revenue", Value.num (groupSumQ mkt ["source"] [x] "revenue")),
       ("roas", if groupSumQ mkt ["source"] [x] "spend" = 0 then Value.na
         else Value.num (groupSumQ mkt ["source"] [x] "revenue" /
           groupSumQ mkt ["source"] [x] "spend"))] := by
  unfold roasRow
  have h1 : rowGet (srcAggRow mkt [x]) "spend" =
      Value.num (groupSumQ mkt ["source"] [x] "spend") := rfl
  have h2 : rowGet (srcAggRow mkt [x]) "revenue" =
      Value.num (groupSumQ mkt ["source"] [x] "revenue") := rfl
  rw [h1, h2]
  by_cases hz : groupSumQ mkt ["source"] [x] "spend" = 0
  · rw [if_pos (by rw [hz]), if_pos hz]
    rfl
  · rw [if_neg (fun hc => hz (Value.num.inj hc)), if_neg hz]
    rfl

/-- Closed form of `channel_perf` on a frame with numeric spend/revenue. -/
lemma channel_perf_ok (mkt : DF)
    (hs : mkt.cols.contains "source" = true)
    (hsp : mkt.cols.contains "spend" = true)
    (hrv : mkt.cols.contains "revenue" = true)
    (hcells : ∀ r ∈ mkt.rows, numOrNa (rowGet r "spend") = true ∧
      numOrNa (rowGet r "revenue") = true) :
    channel_perf mkt = .ok (DF.mk ["source", "spend", "revenue", "roas"]
      (((groupKeys mkt ["source"]).map (srcAggRow mkt)).map roasRow)) := by
  have hs2 : "source" ∈ mkt.cols := by simpa [List.elem_eq_mem] using hs
  have hsp2 : "spend" ∈ mkt.cols := by simpa [List.elem_eq_mem] using hsp
  have hrv2 : "revenue" ∈ mkt.cols := by simpa [List.elem_eq_mem] using hrv
  have hk : ((["source"] : List String).all (fun c => mkt.cols.contains c) &&
      ([("spend", "spend"), ("revenue", "revenue")] : List (String × String)).all
        (fun a => mkt.cols.contains a.2)) = true := by
    simp [List.elem_eq_mem, hs2, hsp2, hrv2]
  have hcells2 : ∀ r ∈ mkt.rows, ∀ a ∈ ([("spend", "spend"), ("revenue", "revenue")] :
      List (String × String)), numOrNa (rowGet r a.2) = true := by
    intro r hr a ha
    rcases List.mem_cons.mp ha with rfl | ha2
    · exact (hcells r hr).1
    · rcases List.mem_cons.mp ha2 with rfl | ha3
      · exact (hcells r hr).2
      · cases ha3
  have hg := groupAgg_eq mkt ["source"] [("spend", "spend"), ("revenue", "revenue")]
    hk hcells2
  unfold channel_perf
  rw [hg, bind_ok]
  have hmap : ((groupKeys mkt ["source"]).map (srcAggRow mkt)).mapM
      (fun r => do
        let v ← divVal (rowGet r "revenue") (replace0 (rowGet r "spend"))
        pure (r ++ [("roas", v)])) =
      .ok (((groupKeys mkt ["source"]).map (srcAggRow mkt)).map roasRow) := by
    apply mapM_ok
    intro r hr
    obtain ⟨k, hkm, rfl⟩ := List.mem_map.mp hr
    obtain ⟨x, rfl, _⟩ := groupKeys_src_shape mkt k hkm
    have h1 : rowGet (srcAggRow mkt [x]) "spend" =
        Value.num (groupSumQ mkt ["source"] [x] "spend") := rfl
    have h2 : rowGet (srcAggRow mkt [x]) "revenue" =
        Value.num (groupSumQ mkt ["source"] [x] "revenue") := rfl
    show (do
      let v ← divVal (rowGet (srcAggRow mkt [x]) "revenue")
        (replace0 (rowGet (srcAggRow mkt [x]) "spend"))
      pure (srcAggRow mkt [x] ++ [("roas", v)])) = Except.ok (roasRow (srcAggRow mkt [x]))
    unfold roasRow
    rw [h1, h2]
    by_cases hz : groupSumQ mkt ["source"] [x] "spend" = 0
    · rw [show replace0 (Value.num (groupSumQ mkt ["source"] [x] "spend")) = Value.na by
        unfold replace0; rw [if_pos (by rw [hz])]]
      rw [show divVal (Value.num (groupSumQ mkt ["source"] [x] "revenue")) Value.na =
        Except.ok Value.na from rfl]
      rw [bind_ok, if_pos (by rw [hz])]
      rfl
    · rw [show replace0 (Value.num (groupSumQ mkt ["source"] [x] "spend")) =
        Value.num (groupSumQ mkt ["source"] [x] "spend") by
        unfold replace0; rw [if_neg (fun hc => hz (Value.num.inj hc))]]
      rw [show divVal (Value.num (groupSumQ mkt ["source"] [x] "revenue"))
          (Value.num (groupSumQ mkt ["source"] [x] "spend")) =
        Except.ok (if groupSumQ mkt ["source"] [x] "spend" = 0 then Value.na
          else Value.num (groupSumQ mkt ["source"] [x] "revenue" /
            groupSumQ mkt ["source"] [x] "spend")) from rfl]
      rw [bind_ok, if_neg hz, if_neg (fun hc => hz (Value.num.inj hc))]
      rfl
  rw [show ((DF.mk (["source"] ++ List.map Prod.fst
      ([("spend", "spend"), ("revenue", "revenue")] : List (String × String)))
      (List.map (fun k => ["source"].zip k ++
        List.map (fun a => (a.1, Value.num (groupSumQ mkt ["source"] k a.2)))
          ([("spend", "spend"), ("revenue", "revenue")] : List (String × String)))
        (groupKeys mkt ["source"]))).rows) =
      ((groupKeys mkt ["source"]).map (srcAggRow mkt)) from rfl]
  rw [hmap, bind_ok]
  rfl

/-- C1: derived ratio metrics of a channel aggregate row are null exactly on
a zero denominator and otherwise the exact quotient.  `ctr` and `cpc` are
modelled from the spec (the code computes neither); `roas` is the code's
`channel_perf` computation: for every aggregated channel row, `roas` is null
iff the summed spend is 0, and otherwise equals summed revenue / summed
spend exactly — never zero, infinity or an error. -/
theorem C1_ratio_null_iff_zero_denominator :
    (∀ clicks impressions : ℚ,
      (ctr_metric clicks impressions = Value.na ↔ impressions = 0) ∧
      (impressions ≠ 0 → ctr_metric clicks impressions = .num (clicks / impressions))) ∧
    (∀ spend clicks : ℚ,
      (cpc_metric spend clicks = Value.na ↔ clicks = 0) ∧
      (clicks ≠ 0 → cpc_metric spend clicks = .num (spend / clicks))) ∧
    (∀ (mkt cp : DF),
      mkt.cols.contains "source" = true →
      mkt.cols.contains "spend" = true →
      mkt.cols.contains "revenue" = true →
      (∀ r ∈ mkt.rows, numOrNa (rowGet r "spend") = true ∧
        numOrNa (rowGet r "revenue") = true) →
      channel_perf mkt = .ok cp →
      ∀ r ∈ cp.rows, ∃ a b : ℚ,
        rowGet r "spend" = Value.num a ∧ rowGet r "revenue" = Value.num b ∧
        (rowGet r "roas" = Value.na ↔ a = 0) ∧
        (a ≠ 0 → rowGet r "roas" = Value.num (b / a))) := by
  refine ⟨?_, ?_, ?_⟩
  · intro clicks impressions
    unfold ctr_metric
    by_cases h : impressions = 0
    · rw [if_pos h]
      exact ⟨by simp [h], fun hne => absurd h hne⟩
    · rw [if_neg h]
      exact ⟨by simp [h], fun _ => rfl⟩
  · intro spend clicks
    unfold cpc_metric
    by_cases h : clicks = 0
    · rw [if_pos h]
      exact ⟨by simp [h], fun hne => absurd h hne⟩
    · rw [if_neg h]
      exact ⟨by simp [h], fun _ => rfl⟩
  · intro mkt cp hs hsp hrv hcells hok
    rw [channel_perf_ok mkt hs hsp hrv hcells] at hok
    have hcp := (Except.ok.injEq _ _).mp hok
    subst hcp
    intro r hr
    simp only [List.map_map] at hr
    obtain ⟨k, hkm, rfl⟩ := List.mem_map.mp hr
    obtain ⟨x, rfl, _⟩ := groupKeys_src_shape mkt k hkm
    refine ⟨groupSumQ mkt ["source"] [x] "spend",
      groupSumQ mkt ["source"] [x] "revenue", ?_⟩
    rw [Function.comp_apply, roasRow_srcAggRow]
    refine ⟨rfl, rfl, ?_, ?_⟩
    · rw [show rowGet [("source", x),
        ("spend", Value.num (groupSumQ mkt ["source"] [x] "spend")),
        ("revenue", Value.num (groupSumQ mkt ["source"] [x] "revenue")),
        ("roas", if groupSumQ mkt ["source"] [x] "spend" = 0 then Value.na
          else Value.num (groupSumQ mkt ["source"] [x] "revenue" /
            groupSumQ mkt ["source"] [x] "spend"))] "roas" =
        (if groupSumQ mkt ["source"] [x] "spend" = 0 then Value.na
          else Value.num (groupSumQ mkt ["source"] [x] "revenue" /
            groupSumQ mkt ["source"] [x] "spend")) from rfl]
      by_cases hz : groupSumQ mkt ["source"] [x] "spend" = 0
      · rw [if_pos hz]
        simp [hz]
      · rw [if_neg hz]
        simp [hz]
    · intro hz
      rw [show rowGet [("source", x),
        ("spend", Value.num (groupSumQ mkt ["source"] [x] "spend")),
        ("revenue", Value.num (groupSumQ mkt ["source"] [x] "revenue")),
        ("roas", if groupSumQ mkt ["source"] [x] "spend" = 0 then Value.na
          else Value.num (groupSumQ mkt ["source"] [x] "revenue" /
            groupSumQ mkt ["source"] [x] "spend"))] "roas" =
        (if groupSumQ mkt ["source"] [x] "spend" = 0 then Value.na
          else Value.num (groupSumQ mkt ["source"] [x] "revenue" /
            groupSumQ mkt ["source"] [x] "spend")) from rfl]
      rw [if_neg hz]

/-- C1 witness: on a two-row Facebook frame summing to spend 150 and
revenue 310, the channel row carries roas 310/150. -/
theorem C1_ratio_null_iff_zero_denominator_witness :
    ∃ a b : ℚ,
      rowGet [("source", Value.str "Facebook"), ("spend", Value.num 150),
        ("revenue", Value.num 310), ("roas", Value.num (31 / 15))] "spend" =
        Value.num a ∧
      rowGet [("source", Value.str "Facebook"), ("spend", Value.num 150),
        ("revenue", Value.num 310), ("roas", Value.num (31 / 15))] "revenue" =
        Value.num b ∧
      (rowGet [("source", Value.str "Facebook"), ("spend", Value.num 150),
        ("revenue", Value.num 310), ("roas", Value.num (31 / 15))] "roas" =
        Value.na ↔ a = 0) ∧
      (a ≠ 0 → rowGet [("source", Value.str "Facebook"), ("spend", Value.num 150),
        ("revenue", Value.num 310), ("roas", Value.num (31 / 15))] "roas" =
        Value.num (b / a)) := by
  have h3 := C1_ratio_null_iff_zero_denominator.2.2
    (DF.mk ["date", "spend", "revenue", "impressions", "clicks", "source"]
      [[("date", Value.date 2024 1 1), ("spend", Value.num 100),
        ("revenue", Value.num 300), ("impressions", Value.num 0),
        ("clicks", Value.num 0), ("source", Value.str "Facebook")],
       [("date", Value.date 2024 1 2), ("spend", Value.num 50),
        ("revenue", Value.num 10), ("impressions", Value.num 0),
        ("clicks", Value.num 0), ("source", Value.str "Facebook")]])
    (DF.mk ["source", "spend", "revenue", "roas"]
      [[("source", Value.str "Facebook"), ("spend", Value.num 150),
        ("revenue", Value.num 310), ("roas", Value.num (31 / 15))]])
    (by decide) (by decide) (by decide) (by decide) (by with_unfolding_all rfl)
  exact h3 _ (List.Mem.head _)

/-! ## Claim C8 -/

/-- C8 counterexample: the claim says cac = spend / new_customers, null on a
zero denominator.  With marketing spend 100 and a business file carrying
new_orders = 2 and new_customers = 5, the insight cac (app.py line 209)
evaluates to 100/2 = 50, not 100/5 = 20; and with new_orders = 0 (while
new_customers is still 5) it evaluates to 0, not null. -/
theorem C8_counterexample :
    cacInsight
      (load_data [("Facebook.csv", FileContent.table (DF.mk ["date", "spend"]
          [[("date", Value.str "2024-01-01"), ("spend", Value.num 100)]])),
        ("business.csv", FileContent.table (DF.mk
          ["date", "# or new orders", "new customers"]
          [[("date", Value.str "2024-01-01"), ("# or new orders", Value.num 2),
            ("new customers", Value.num 5)]]))]).1
      (load_data [("Facebook.csv", FileContent.table (DF.mk ["date", "spend"]
          [[("date", Value.str "2024-01-01"), ("spend", Value.num 100)]])),
        ("business.csv", FileContent.table (DF.mk
          ["date", "# or new orders", "new customers"]
          [[("date", Value.str "2024-01-01"), ("# or new orders", Value.num 2),
            ("new customers", Value.num 5)]]))]).2 = .ok (.num 50) ∧
    (50 : ℚ) ≠ 100 / 5 ∧
    cacInsight
      (load_data [("Facebook.csv", FileContent.table (DF.mk ["date", "spend"]
          [[("date", Value.str "2024-01-01"), ("spend", Value.num 100)]])),
        ("business.csv", FileContent.table (DF.mk
          ["date", "# or new orders", "new customers"]
          [[("date", Value.str "2024-01-01"), ("# or new orders", Value.num 0),
            ("new customers", Value.num 5)]]))]).1
      (load_data [("Facebook.csv", FileContent.table (DF.mk ["date", "spend"]
          [[("date", Value.str "2024-01-01"), ("spend", Value.num 100)]])),
        ("business.csv", FileContent.table (DF.mk
          ["date", "# or new orders", "new customers"]
          [[("date", Value.str "2024-01-01"), ("# or new orders", Value.num 0),
            ("new customers", Value.num 5)]]))]).2 = .ok (.num 0) ∧
    (Except.ok (Value.num 0) : Except String Value) ≠ .ok Value.na := by
  refine ⟨by with_unfolding_all rfl, by with_unfolding_all decide,
    by with_unfolding_all rfl,
    fun h => (by decide : Value.num 0 ≠ Value.na) (Except.ok.inj h)⟩

/-- C8 (amended): the derived customer-acquisition-cost metric is spend
divided by the period sum of `new_orders` (not `new_customers`), and when
that sum is not positive it is 0 (not null): this holds for the insight cac
of app.py line 209, and for the scatter frame's cac column (lines 167-168),
which is only ever computed with a positive denominator and there equals
each row's spend divided by the new_orders sum. -/
theorem C8_cac_from_new_orders :
    (∀ (mkt biz : DF),
      mkt.cols.contains "spend" = true →
      (∀ r ∈ mkt.rows, numOrNa (rowGet r "spend") = true) →
      biz.cols.contains "new_orders" = true →
      (∀ r ∈ biz.rows, numOrNa (rowGet r "new_orders") = true) →
      cacInsight mkt biz = .ok (.num
        (if 0 < (biz.rows.map (fun r => qOf (rowGet r "new_orders"))).sum then
          (mkt.rows.map (fun r => qOf (rowGet r "spend"))).sum /
            (biz.rows.map (fun r => qOf (rowGet r "new_orders"))).sum
        else 0))) ∧
    (∀ (cp : DF) (tq : ℚ) (gm : Value), 0 < tq →
      (∀ r ∈ cp.rows, isNumV (rowGet r "spend") = true) →
      cacDf cp (.num tq) gm = .ok (DF.mk (cp.cols ++ ["cac", "gm_per_order"])
        (cp.rows.map (fun r => r ++ [("cac", Value.num (qOf (rowGet r "spend") / tq)),
          ("gm_per_order", gm)])))) := by
  constructor
  · intro mkt biz hmc hmn hbc hbn
    unfold cacInsight
    rw [if_pos hbc]
    have hcolB : colE biz "new_orders" = .ok (biz.rows.map (fun r => rowGet r "new_orders")) := by
      unfold colE
      rw [if_pos hbc]
    rw [hcolB, bind_ok]
    have hsumB : sumValsE (biz.rows.map (fun r => rowGet r "new_orders")) =
        .ok (.num ((biz.rows.map (fun r => qOf (rowGet r "new_orders"))).sum)) := by
      rw [sumValsE_num _ (by
        intro v hv
        obtain ⟨r, hr, rfl⟩ := List.mem_map.mp hv
        exact hbn r hr)]
      rw [List.map_map]
      rfl
    rw [hsumB, bind_ok]
    rw [show gtE (Value.num ((biz.rows.map (fun r => qOf (rowGet r "new_orders"))).sum)) 0 =
      .ok (decide (0 < (biz.rows.map (fun r => qOf (rowGet r "new_orders"))).sum)) from rfl]
    rw [bind_ok]
    by_cases hq : 0 < (biz.rows.map (fun r => qOf (rowGet r "new_orders"))).sum
    · rw [if_pos (by rw [decide_eq_true hq]), if_pos hq]
      have hcolM : colE mkt "spend" = .ok (mkt.rows.map (fun r => rowGet r "spend")) := by
        unfold colE
        rw [if_pos hmc]
      rw [hcolM, bind_ok]
      have hsumM : sumValsE (mkt.rows.map (fun r => rowGet r "spend")) =
          .ok (.num ((mkt.rows.map (fun r => qOf (rowGet r "spend"))).sum)) := by
        rw [sumValsE_num _ (by
          intro v hv
          obtain ⟨r, hr, rfl⟩ := List.mem_map.mp hv
          exact hmn r hr)]
        rw [List.map_map]
        rfl
      rw [hsumM, bind_ok]
      show Except.ok (if (biz.rows.map (fun r => qOf (rowGet r "new_orders"))).sum = 0
        then Value.na else Value.num _) = _
      rw [if_neg hq.ne.symm]
    · rw [if_neg (by rw [decide_eq_false hq]; exact Bool.false_ne_true), if_neg hq]
      rfl
  · intro cp tq gm hq hnum
    unfold cacDf
    rw [show gtE (Value.num tq) 0 = .ok true by
      show Except.ok (decide (0 < tq)) = _
      rw [decide_eq_true hq]]
    rw [bind_ok]
    have hmap : cp.rows.mapM (fun r =>
        (if (true : Bool) then divVal (rowGet r "spend") (Value.num tq)
          else pure (Value.num 0)) >>= fun c =>
          pure (r ++ [("cac", c), ("gm_per_order", gm)])) =
        .ok (cp.rows.map (fun r => r ++ [("cac", Value.num (qOf (rowGet r "spend") / tq)),
          ("gm_per_order", gm)])) := by
      apply mapM_ok
      intro r hr
      obtain ⟨a, ha⟩ := isNumV_num _ (hnum r hr)
      rw [show (if (true : Bool) then divVal (rowGet r "spend") (Value.num tq)
        else pure (Value.num 0)) = divVal (rowGet r "spend") (Value.num tq) from rfl]
      rw [ha]
      rw [show divVal (Value.num a) (Value.num tq) =
        .ok (if tq = 0 then Value.na else Value.num (a / tq)) from rfl]
      rw [bind_ok, if_neg hq.ne.symm]
      rfl
    rw [hmap, bind_ok]
    rfl

/-- C8 witness: scatter-frame cac on a one-channel frame with spend 150 and
a new_orders total of 2 yields cac 75 per row. -/
theorem C8_cac_from_new_orders_witness :
    cacDf (DF.mk ["source", "spend", "revenue", "roas"]
        [[("source", Value.str "Facebook"), ("spend", Value.num 150),
          ("revenue", Value.num 310), ("roas", Value.num (31 / 15))]])
      (.num 2) (.num 15) = .ok (DF.mk
        ["source", "spend", "revenue", "roas", "cac", "gm_per_order"]
        [[("source", Value.str "Facebook"), ("spend", Value.num 150),
          ("revenue", Value.num 310), ("roas", Value.num (31 / 15)),
          ("cac", Value.num (qOf (Value.num 150) / 2)), ("gm_per_order", Value.num 15)]]) :=
  C8_cac_from_new_orders.2 _ 2 (.num 15) (by norm_num) (by decide)

/-! ## Claim C3 -/

lemma mapM_congr {α β : Type} (l : List α) (f g : α → Except String β)
    (h : ∀ x ∈ l, f x = g x) : l.mapM f = l.mapM g := by
  induction l with
  | nil => rfl
  | cons a t ih =>
    rw [List.mapM_cons, List.mapM_cons, h a (by simp),
      ih (fun x hx => h x (List.mem_cons_of_mem a hx))]

lemma validKey_false_of_na (keys : List String) (c : String) (hc : c ∈ keys)
    (r : Row) (h : isNa (rowGet r c) = true) : validKey (keyOf keys r) = false := by
  cases hval : validKey (keyOf keys r) with
  | false => rfl
  | true =>
    exfalso
    have hmem : rowGet r c ∈ keyOf keys r := List.mem_map_of_mem (rowGet r) hc
    have := List.all_eq_true.mp hval (rowGet r c) hmem
    rw [h] at this
    cases this

/-- Date-keyed grouping is unchanged by first dropping the rows whose date
cell is the missing marker: null-date rows belong to no date group. -/
lemma groupAgg_filter_na (df : DF) (keys : List String) (aggs : List (String × String))
    (c : String) (hc : c ∈ keys) :
    groupAgg df keys aggs =
      groupAgg (filterRows df (fun r => !(isNa (rowGet r c)))) keys aggs := by
  have hks : (((df.rows.filter (fun r => !(isNa (rowGet r c)))).map
      (keyOf keys)).filter validKey) = ((df.rows.map (keyOf keys)).filter validKey) := by
    induction df.rows with
    | nil => rfl
    | cons r t ih =>
      rw [List.filter_cons]
      by_cases hp : (!(isNa (rowGet r c))) = true
      · rw [if_pos hp, List.map_cons, List.map_cons, List.filter_cons, List.filter_cons,
          ih]
      · have hna : isNa (rowGet r c) = true := by simpa using hp
        rw [if_neg hp, List.map_cons, List.filter_cons,
          if_neg (by rw [validKey_false_of_na keys c hc r hna]; exact Bool.false_ne_true)]
        exact ih
  have hgrp : ∀ k : List Value, validKey k = true →
      ((df.rows.filter (fun r => !(isNa (rowGet r c)))).filter
        (fun r => decide (keyOf keys r = k))) =
      (df.rows.filter (fun r => decide (keyOf keys r = k))) := by
    intro k hv
    rw [List.filter_filter]
    apply List.filter_congr
    intro r _
    by_cases hk : keyOf keys r = k
    · have hnn : (!(isNa (rowGet r c))) = true := by
        by_contra hcon
        have hna : isNa (rowGet r c) = true := by simpa using hcon
        have h2 := validKey_false_of_na keys c hc r hna
        rw [hk, hv] at h2
        cases h2
      simp [hk, hnn]
    · simp [hk]
  unfold groupAgg
  rw [show (filterRows df (fun r => !(isNa (rowGet r c)))).cols = df.cols from rfl]
  by_cases hcond : ((keys.all fun c2 => df.cols.contains c2) &&
      aggs.all fun a => df.cols.contains a.2) = true
  · rw [if_pos hcond, if_pos hcond,
      show (filterRows df (fun r => !(isNa (rowGet r c)))).rows =
        df.rows.filter (fun r => !(isNa (rowGet r c))) from rfl,
      hks]
    congr 1
    apply mapM_congr
    intro k hk
    have hv : validKey k = true :=
      (List.mem_filter.mp (List.mem_dedup.mp hk)).2
    congr 1
    apply mapM_congr
    intro a _
    rw [hgrp k hv]
  · rw [if_neg hcond, if_neg hcond]

set_option maxRecDepth 40000 in
/-- C3 counterexample: a Facebook file with one valid row (date 2024-01-01,
spend 100, revenue 300) and one row whose date is "not-a-date" (spend 50).
The bad row's date coerces to null and it is indeed dropped from the
date-keyed rollup, but the claim says the row is excluded from every
aggregation: the channel aggregate still counts it (spend 150, not 100),
as does the whole-period spend total. -/
theorem C3_counterexample :
    toDatetime (Value.str "not-a-date") = Value.na ∧
    spend_by_source (load_data [("Facebook.csv", FileContent.table
        (DF.mk ["date", "spend", "revenue"]
          [[("date", Value.str "2024-01-01"), ("spend", Value.num 100),
            ("revenue", Value.num 300)],
           [("date", Value.str "not-a-date"), ("spend", Value.num 50),
            ("revenue", Value.num 10)]]))]).1 =
      .ok (DF.mk ["source", "spend"]
        [[("source", Value.str "Facebook"), ("spend", Value.num 150)]]) ∧
    (150 : ℚ) ≠ 100 ∧
    (colE (load_data [("Facebook.csv", FileContent.table
        (DF.mk ["date", "spend", "revenue"]
          [[("date", Value.str "2024-01-01"), ("spend", Value.num 100),
            ("revenue", Value.num 300)],
           [("date", Value.str "not-a-date"), ("spend", Value.num 50),
            ("revenue", Value.num 10)]]))]).1 "spend" >>= sumValsE) =
      .ok (Value.num 150) ∧
    day_rollup (load_data [("Facebook.csv", FileContent.table
        (DF.mk ["date", "spend", "revenue"]
          [[("date", Value.str "2024-01-01"), ("spend", Value.num 100),
            ("revenue", Value.num 300)],
           [("date", Value.str "not-a-date"), ("spend", Value.num 50),
            ("revenue", Value.num 10)]]))]).1 =
      .ok (DF.mk ["date", "spend", "revenue"]
        [[("date", Value.date 2024 1 1), ("spend", Value.num 100),
          ("revenue", Value.num 300)]]) := by
  have hload : (load_data [("Facebook.csv", FileContent.table
      (DF.mk ["date", "spend", "revenue"]
        [[("date", Value.str "2024-01-01"), ("spend", Value.num 100),
          ("revenue", Value.num 300)],
         [("date", Value.str "not-a-date"), ("spend", Value.num 50),
          ("revenue", Value.num 10)]]))]).1 =
      DF.mk ["date", "spend", "revenue", "impressions", "clicks", "source"]
        [[("date", Value.date 2024 1 1), ("spend", Value.num 100),
          ("revenue", Value.num 300), ("impressions", Value.num 0),
          ("clicks", Value.num 0), ("source", Value.str "Facebook")],
         [("date", Value.na), ("spend", Value.num 50), ("revenue", Value.num 10),
          ("impressions", Value.num 0), ("clicks", Value.num 0),
          ("source", Value.str "Facebook")]] := by
    with_unfolding_all rfl
  refine ⟨rfl, ?_, by with_unfolding_all decide, ?_, ?_⟩
  · rw [hload]
    with_unfolding_all rfl
  · rw [hload]
    with_unfolding_all rfl
  · rw [hload]
    with_unfolding_all rfl

/-- C3 (amended): a row whose date fails to parse gets the null date marker
and is excluded from every date-keyed aggregation (the date grouping and
the date-by-channel grouping behave as if null-date rows were dropped
first), but such rows remain included in channel-keyed aggregates and in
whole-period totals: the channel grouping sums every row of its channel,
with no condition on the date. -/
theorem C3_null_date_scope :
    (∀ v, parseDate? v = none → toDatetime v = Value.na) ∧
    (∀ (df : DF) (aggs : List (String × String)),
      groupAgg df ["date"] aggs =
        groupAgg (filterRows df (fun r => !(isNa (rowGet r "date")))) ["date"] aggs) ∧
    (∀ (df : DF) (aggs : List (String × String)),
      groupAgg df ["date", "source"] aggs =
        groupAgg (filterRows df (fun r => !(isNa (rowGet r "date"))))
          ["date", "source"] aggs) ∧
    (∀ (mkt S : DF),
      mkt.cols.contains "source" = true → mkt.cols.contains "spend" = true →
      (∀ r ∈ mkt.rows, numOrNa (rowGet r "spend") = true) →
      spend_by_source mkt = .ok S →
      ∀ row ∈ S.rows, ∃ x,
        rowGet row "source" = x ∧
        rowGet row "spend" = Value.num
          (((mkt.rows.filter (fun r => decide (rowGet r "source" = x))).map
            (fun r => qOf (rowGet r "spend"))).sum)) := by
  refine ⟨?_, ?_, ?_, ?_⟩
  · intro v h
    unfold toDatetime
    rw [h]
  · intro df aggs
    exact groupAgg_filter_na df ["date"] aggs "date" (by simp)
  · intro df aggs
    exact groupAgg_filter_na df ["date", "source"] aggs "date" (by simp)
  · intro mkt S hs hsp hnum hok
    have hk : ((["source"] : List String).all (fun c => mkt.cols.contains c) &&
        ([("spend", "spend")] : List (String × String)).all
          (fun a => mkt.cols.contains a.2)) = true := by
      have hs2 : "source" ∈ mkt.cols := by simpa [List.elem_eq_mem] using hs
      have hsp2 : "spend" ∈ mkt.cols := by simpa [List.elem_eq_mem] using hsp
      simp [List.elem_eq_mem, hs2, hsp2]
    have hcells2 : ∀ r ∈ mkt.rows, ∀ a ∈ ([("spend", "spend")] :
        List (String × String)), numOrNa (rowGet r a.2) = true := by
      intro r hr a ha
      rcases List.mem_cons.mp ha with rfl | ha2
      · exact hnum r hr
      · cases ha2
    have hg := groupAgg_eq mkt ["source"] [("spend", "spend")] hk hcells2
    unfold spend_by_source at hok
    rw [hg] at hok
    have hS := (Except.ok.injEq _ _).mp hok
    subst hS
    intro row hrow
    obtain ⟨k, hkm, rfl⟩ := List.mem_map.mp hrow
    obtain ⟨x, rfl, _⟩ := groupKeys_src_shape mkt k hkm
    refine ⟨x, rfl, ?_⟩
    have hget : rowGet (["source"].zip [x] ++
        List.map (fun a => (a.1, Value.num (groupSumQ mkt ["source"] [x] a.2)))
          ([("spend", "spend")] : List (String × String))) "spend" =
        Value.num (groupSumQ mkt ["source"] [x] "spend") := rfl
    rw [hget]
    congr 1
    unfold groupSumQ
    refine congrArg List.sum (congrArg (List.map (fun r => qOf (rowGet r "spend")))
      (List.filter_congr ?_))
    intro r _
    show decide (keyOf ["source"] r = [x]) = decide (rowGet r "source" = x)
    by_cases h : rowGet r "source" = x
    · rw [decide_eq_true h, decide_eq_true (show keyOf ["source"] r = [x] by
        unfold keyOf
        rw [List.map_cons, List.map_nil, h])]
    · rw [decide_eq_false h, decide_eq_false (fun hk2 => h (by
        have : keyOf ["source"] r = [rowGet r "source"] := rfl
        rw [this] at hk2
        exact List.cons.inj hk2 |>.1))]

/-- C3 witness: the scope theorem instantiated on the counterexample's
frame: "not-a-date" coerces to null, the date rollup of the loaded frame is
drop-null invariant, and the Facebook channel row sums every Facebook row. -/
theorem C3_null_date_scope_witness :
    toDatetime (Value.str "not-a-date") = Value.na ∧
    (groupAgg (DF.mk ["date", "spend"]
        [[("date", Value.na), ("spend", Value.num 50)],
         [("date", Value.date 2024 1 1), ("spend", Value.num 100)]]) ["date"]
        [("spend", "spend")] =
      groupAgg (filterRows (DF.mk ["date", "spend"]
        [[("date", Value.na), ("spend", Value.num 50)],
         [("date", Value.date 2024 1 1), ("spend", Value.num 100)]])
          (fun r => !(isNa (rowGet r "date")))) ["date"] [("spend", "spend")]) ∧
    (∃ x, rowGet [("source", Value.str "Facebook"), ("spend", Value.num 150)]
        "source" = x ∧
      rowGet [("source", Value.str "Facebook"), ("spend", Value.num 150)] "spend" =
        Value.num ((((DF.mk ["date", "spend", "source"]
          [[("date", Value.date 2024 1 1), ("spend", Value.num 100),
            ("source", Value.str "Facebook")],
           [("date", Value.na), ("spend", Value.num 50),
            ("source", Value.str "Facebook")]]).rows.filter
            (fun r => decide (rowGet r "source" = x))).map
          (fun r => qOf (rowGet r "spend"))).sum)) := by
  refine ⟨C3_null_date_scope.1 (Value.str "not-a-date") rfl,
    C3_null_date_scope.2.1 _ _, ?_⟩
  have h4 := C3_null_date_scope.2.2.2 (DF.mk ["date", "spend", "source"]
      [[("date", Value.date 2024 1 1), ("spend", Value.num 100),
        ("source", Value.str "Facebook")],
       [("date", Value.na), ("spend", Value.num 50),
        ("source", Value.str "Facebook")]])
    (DF.mk ["source", "spend"]
      [[("source", Value.str "Facebook"), ("spend", Value.num 150)]])
    (by decide) (by decide) (by decide) (by with_unfolding_all rfl)
  exact h4 _ (List.Mem.head _)

/-! ## Claim C10 -/

lemma sum_map_ite_single {α : Type} [DecidableEq α] (keys : List α) (a : α) (c : ℚ)
    (S : α → ℚ) (hnd : keys.Nodup) (ha : a ∈ keys) :
    (keys.map (fun k => if a = k then c + S k else S k)).sum = c + (keys.map S).sum := by
  induction keys with
  | nil => cases ha
  | cons k t ih =>
    rw [List.map_cons, List.sum_cons, List.map_cons, List.sum_cons]
    rcases List.mem_cons.mp ha with rfl | hat
    · rw [if_pos rfl]
      have hnot : a ∉ t := (List.nodup_cons.mp hnd).1
      have hmap : t.map (fun k2 => if a = k2 then c + S k2 else S k2) = t.map S :=
        List.map_congr_left (fun x hx => if_neg (fun he => hnot (by rw [he]; exact hx)))
      rw [hmap, add_assoc]
    · have hak : a ≠ k := fun he => (List.nodup_cons.mp hnd).1 (he ▸ hat)
      rw [if_neg hak, ih (List.nodup_cons.mp hnd).2 hat, add_left_comm]

/-- Summing group sums over a duplicate-free key list that exactly covers
the rows selected by `p` equals summing over those rows directly. -/
lemma sum_partition {α : Type} [DecidableEq α] (g : Row → α) (f : Row → ℚ)
    (p : Row → Bool) (keys : List α) (hnd : keys.Nodup) :
    ∀ rows : List Row,
      (∀ r ∈ rows, p r = true → g r ∈ keys) →
      (∀ r ∈ rows, g r ∈ keys → p r = true) →
      (keys.map (fun k => ((rows.filter (fun r => decide (g r = k))).map f).sum)).sum =
        ((rows.filter p).map f).sum := by
  intro rows
  induction rows with
  | nil =>
    intro _ _
    simp
  | cons r t ih =>
    intro hcov hsnd
    have ih2 := ih (fun r2 h2 => hcov r2 (List.mem_cons_of_mem r h2))
      (fun r2 h2 => hsnd r2 (List.mem_cons_of_mem r h2))
    by_cases hp : p r = true
    · have hg : g r ∈ keys := hcov r (List.mem_cons_self r t) hp
      have hmc : keys.map (fun k => (((r :: t).filter
          (fun r2 => decide (g r2 = k))).map f).sum) =
          keys.map (fun k => if g r = k then
            f r + ((t.filter (fun r2 => decide (g r2 = k))).map f).sum
          else ((t.filter (fun r2 => decide (g r2 = k))).map f).sum) := by
        apply List.map_congr_left
        intro k _
        rw [List.filter_cons]
        by_cases he : g r = k
        · rw [if_pos (decide_eq_true he), List.map_cons, List.sum_cons, if_pos he]
        · rw [if_neg (by rw [decide_eq_false he]; exact Bool.false_ne_true), if_neg he]
      rw [hmc, sum_map_ite_single keys (g r) (f r) _ hnd hg, ih2,
        List.filter_cons, if_pos hp, List.map_cons, List.sum_cons]
    · have hgn : g r ∉ keys := fun hin => hp (hsnd r (List.mem_cons_self r t) hin)
      have hmc : keys.map (fun k => (((r :: t).filter
          (fun r2 => decide (g r2 = k))).map f).sum) =
          keys.map (fun k => ((t.filter (fun r2 => decide (g r2 = k))).map f).sum) := by
        apply List.map_congr_left
        intro k hk
        rw [List.filter_cons, if_neg (by
          rw [decide_eq_false (fun he => hgn (by rw [he]; exact hk))]
          exact Bool.false_ne_true)]
      rw [hmc, ih2, List.filter_cons, if_neg hp]

lemma groupKeys_two_shape (mkt : DF) (k : List Value)
    (hk : k ∈ groupKeys mkt ["date", "source"]) :
    ∃ r0 ∈ mkt.rows, k = [rowGet r0 "date", rowGet r0 "source"] ∧
      isNa (rowGet r0 "date") = false ∧ isNa (rowGet r0 "source") = false := by
  obtain ⟨hv, r0, hr0, rfl⟩ := mem_groupKeys mkt ["date", "source"] k hk
  refine ⟨r0, hr0, rfl, ?_, ?_⟩ <;>
  · unfold validKey keyOf at hv
    simp only [List.map_cons, List.map_nil, List.all_cons, List.all_nil,
      Bool.and_true, Bool.and_eq_true] at hv
    simp only [Bool.not_eq_eq_eq_not, Bool.not_true] at hv
    first
    | exact hv.1
    | exact hv.2

/-- C10: for every row of the date-only rollup (fig5, app.py line 127), the
sum of per-channel spend over all `mkt_day` rows carrying that date
(app.py lines 180-183) equals the rollup row's spend: the two groupings are
consistent re-aggregations of the same sums, for every input frame with
numeric spend cells and non-null channel tags. -/
theorem C10_rollup_consistency (mkt M R : DF)
    (hdc : mkt.cols.contains "date" = true)
    (hsc : mkt.cols.contains "source" = true)
    (hspc : mkt.cols.contains "spend" = true)
    (hrvc : mkt.cols.contains "revenue" = true)
    (hcells : ∀ r ∈ mkt.rows, numOrNa (rowGet r "spend") = true ∧
      numOrNa (rowGet r "revenue") = true)
    (hsrc : ∀ r ∈ mkt.rows, isNa (rowGet r "source") = false)
    (hM : mkt_day mkt = .ok M) (hR : day_rollup mkt = .ok R) :
    ∀ rR ∈ R.rows,
      ((M.rows.filter (fun r => decide (rowGet r "date" = rowGet rR "date"))).map
        (fun r => qOf (rowGet r "spend"))).sum = qOf (rowGet rR "spend") := by
  have hcells2 : ∀ r ∈ mkt.rows, ∀ a ∈ ([("spend", "spend"), ("revenue", "revenue")] :
      List (String × String)), numOrNa (rowGet r a.2) = true := by
    intro r hr a ha
    rcases List.mem_cons.mp ha with rfl | ha2
    · exact (hcells r hr).1
    · rcases List.mem_cons.mp ha2 with rfl | ha3
      · exact (hcells r hr).2
      · cases ha3
  have hd2 : "date" ∈ mkt.cols := by simpa [List.elem_eq_mem] using hdc
  have hs2 : "source" ∈ mkt.cols := by simpa [List.elem_eq_mem] using hsc
  have hsp2 : "spend" ∈ mkt.cols := by simpa [List.elem_eq_mem] using hspc
  have hrv2 : "revenue" ∈ mkt.cols := by simpa [List.elem_eq_mem] using hrvc
  have hgM := groupAgg_eq mkt ["date", "source"] [("spend", "spend"), ("revenue", "revenue")]
    (by simp [List.elem_eq_mem, hd2, hs2, hsp2, hrv2]) hcells2
  have hgR := groupAgg_eq mkt ["date"] [("spend", "spend"), ("revenue", "revenue")]
    (by simp [List.elem_eq_mem, hd2, hsp2, hrv2]) hcells2
  unfold mkt_day at hM
  rw [hgM] at hM
  have hMe := (Except.ok.injEq _ _).mp hM
  subst hMe
  unfold day_rollup at hR
  rw [hgR] at hR
  have hRe := (Except.ok.injEq _ _).mp hR
  subst hRe
  intro rR hrR
  simp only [DF.rows] at hrR ⊢
  obtain ⟨k1, hk1, rfl⟩ := List.mem_map.mp hrR
  obtain ⟨hv1, r0, hr0, rfl⟩ := mem_groupKeys mkt ["date"] k1 hk1
  have hd0 : isNa (rowGet r0 "date") = false := by
    unfold validKey keyOf at hv1
    simp only [List.map_cons, List.map_nil, List.all_cons, List.all_nil,
      Bool.and_true] at hv1
    simpa using hv1
  have hgetd : rowGet (["date"].zip (keyOf ["date"] r0) ++
      List.map (fun a => (a.1, Value.num (groupSumQ mkt ["date"] (keyOf ["date"] r0) a.2)))
        ([("spend", "spend"), ("revenue", "revenue")] : List (String × String))) "date" =
      rowGet r0 "date" := rfl
  have hgets : qOf (rowGet (["date"].zip (keyOf ["date"] r0) ++
      List.map (fun a => (a.1, Value.num (groupSumQ mkt ["date"] (keyOf ["date"] r0) a.2)))
        ([("spend", "spend"), ("revenue", "revenue")] : List (String × String))) "spend") =
      groupSumQ mkt ["date"] (keyOf ["date"] r0) "spend" := rfl
  rw [hgetd, hgets]
  rw [List.filter_map, List.map_map]
  have hmc : ((groupKeys mkt ["date", "source"]).filter
      ((fun row => decide (rowGet row "date" = rowGet r0 "date")) ∘ (fun k =>
        ["date", "source"].zip k ++
        List.map (fun a => (a.1, Value.num (groupSumQ mkt ["date", "source"] k a.2)))
          ([("spend", "spend"), ("revenue", "revenue")] : List (String × String))))).map
      ((fun r => qOf (rowGet r "spend")) ∘ (fun k =>
        ["date", "source"].zip k ++
        List.map (fun a => (a.1, Value.num (groupSumQ mkt ["date", "source"] k a.2)))
          ([("spend", "spend"), ("revenue", "revenue")] : List (String × String)))) =
      ((groupKeys mkt ["date", "source"]).filter
        ((fun row => decide (rowGet row "date" = rowGet r0 "date")) ∘ (fun k =>
        ["date", "source"].zip k ++
        List.map (fun a => (a.1, Value.num (groupSumQ mkt ["date", "source"] k a.2)))
          ([("spend", "spend"), ("revenue", "revenue")] : List (String × String))))).map
      (fun k => ((mkt.rows.filter (fun r => decide (keyOf ["date", "source"] r = k))).map
        (fun r => qOf (rowGet r "spend"))).sum) := by
    apply List.map_congr_left
    intro k hkm
    have hk2 : k ∈ groupKeys mkt ["date", "source"] := List.mem_of_mem_filter hkm
    obtain ⟨rk, _, rfl, _, _⟩ := groupKeys_two_shape mkt k hk2
    rfl
  rw [hmc]
  have hpart := sum_partition (keyOf ["date", "source"])
    (fun r => qOf (rowGet r "spend"))
    (fun r => decide (rowGet r "date" = rowGet r0 "date"))
    ((groupKeys mkt ["date", "source"]).filter
      ((fun row => decide (rowGet row "date" = rowGet r0 "date")) ∘ (fun k =>
        ["date", "source"].zip k ++
        List.map (fun a => (a.1, Value.num (groupSumQ mkt ["date", "source"] k a.2)))
          ([("spend", "spend"), ("revenue", "revenue")] : List (String × String)))))
    (List.Nodup.filter _ (groupKeys_nodup mkt ["date", "source"]))
    mkt.rows
    (by
      intro r hr hp
      have hdr : rowGet r "date" = rowGet r0 "date" := of_decide_eq_true hp
      rw [List.mem_filter]
      constructor
      · unfold groupKeys
        rw [List.mem_dedup, List.mem_filter]
        refine ⟨List.mem_map_of_mem (keyOf ["date", "source"]) hr, ?_⟩
        unfold validKey keyOf
        simp only [List.map_cons, List.map_nil, List.all_cons, List.all_nil,
          Bool.and_true, Bool.and_eq_true]
        rw [hdr]
        constructor
        · simp [hd0]
        · simp [hsrc r hr]
      · show decide (rowGet (["date", "source"].zip (keyOf ["date", "source"] r) ++
          List.map _ _) "date" = rowGet r0 "date") = true
        have : rowGet (["date", "source"].zip (keyOf ["date", "source"] r) ++
            List.map (fun a => (a.1, Value.num (groupSumQ mkt ["date", "source"]
              (keyOf ["date", "source"] r) a.2)))
            ([("spend", "spend"), ("revenue", "revenue")] : List (String × String))) "date" =
            rowGet r "date" := rfl
        rw [this, hdr]
        exact decide_eq_true rfl)
    (by
      intro r hr hin
      rw [List.mem_filter] at hin
      have hpred := hin.2
      have heq : rowGet (["date", "source"].zip (keyOf ["date", "source"] r) ++
          List.map (fun a => (a.1, Value.num (groupSumQ mkt ["date", "source"]
            (keyOf ["date", "source"] r) a.2)))
          ([("spend", "spend"), ("revenue", "revenue")] : List (String × String))) "date" =
          rowGet r "date" := rfl
      have := of_decide_eq_true hpred
      rw [heq] at this
      exact decide_eq_true this)
  rw [hpart]
  unfold groupSumQ
  refine congrArg List.sum (congrArg (List.map (fun r => qOf (rowGet r "spend")))
    (List.filter_congr ?_))
  intro r _
  show decide (rowGet r "date" = rowGet r0 "date") =
    decide (keyOf ["date"] r = keyOf ["date"] r0)
  by_cases h : rowGet r "date" = rowGet r0 "date"
  · rw [decide_eq_true h, decide_eq_true (show keyOf ["date"] r = keyOf ["date"] r0 by
      unfold keyOf
      rw [List.map_cons, List.map_nil, List.map_cons, List.map_nil, h])]
  · rw [decide_eq_false h, decide_eq_false (fun hk2 => h (by
      have h1 : keyOf ["date"] r = [rowGet r "date"] := rfl
      have h2 : keyOf ["date"] r0 = [rowGet r0 "date"] := rfl
      rw [h1, h2] at hk2
      exact (List.cons.inj hk2).1))]

set_option maxRecDepth 40000 in
/-- C10 witness: for a two-channel frame sharing date 2024-01-01, the
per-channel spends 100 and 70 sum to the date rollup's 170. -/
theorem C10_rollup_consistency_witness :
    (((DF.mk ["date", "source", "spend", "revenue"]
      [[("date", Value.date 2024 1 1), ("source", Value.str "Facebook"),
        ("spend", Value.num 100), ("revenue", Value.num 300)],
       [("date", Value.date 2024 1 1), ("source", Value.str "Google"),
        ("spend", Value.num 70), ("revenue", Value.num 30)]]).rows.filter
      (fun r => decide (rowGet r "date" =
        rowGet [("date", Value.date 2024 1 1), ("spend", Value.num 170),
          ("revenue", Value.num 330)] "date"))).map
      (fun r => qOf (rowGet r "spend"))).sum =
    qOf (rowGet [("date", Value.date 2024 1 1), ("spend", Value.num 170),
      ("revenue", Value.num 330)] "spend") :=
  C10_rollup_consistency
    (DF.mk ["date", "source", "spend", "revenue"]
      [[("date", Value.date 2024 1 1), ("source", Value.str "Facebook"),
        ("spend", Value.num 100), ("revenue", Value.num 300)],
       [("date", Value.date 2024 1 1), ("source", Value.str "Google"),
        ("spend", Value.num 70), ("revenue", Value.num 30)]])
    (DF.mk ["date", "source", "spend", "revenue"]
      [[("date", Value.date 2024 1 1), ("source", Value.str "Facebook"),
        ("spend", Value.num 100), ("revenue", Value.num 300)],
       [("date", Value.date 2024 1 1), ("source", Value.str "Google"),
        ("spend", Value.num 70), ("revenue", Value.num 30)]])
    (DF.mk ["date", "spend", "revenue"]
      [[("date", Value.date 2024 1 1), ("spend", Value.num 170),
        ("revenue", Value.num 330)]])
    (by decide) (by decide) (by decide) (by decide) (by decide) (by decide)
    (by with_unfolding_all rfl) (by with_unfolding_all rfl)
    [("date", Value.date 2024 1 1), ("spend", Value.num 170),
      ("revenue", Value.num 330)]
    (List.Mem.head _)

/-! ## Claim C2 -/

set_option maxRecDepth 40000 in
/-- C2 counterexample: marketing has activity on 2024-01-01 and 2024-01-02,
business has rows for 2024-01-02 and 2024-01-03.  The claim says the join's
left side is the marketing rollup, so 2024-01-01 would be retained and
missing business fields filled with 0.  The code's join keeps exactly the
business dates: the marketing-only date 2024-01-01 is dropped, and the
business-only date 2024-01-03 carries a null (not 0) attributed_revenue. -/
theorem C2_counterexample :
    rev_compare
      (load_data [("Facebook.csv", FileContent.table (DF.mk ["date", "spend", "revenue"]
          [[("date", Value.str "2024-01-01"), ("spend", Value.num 100),
            ("revenue", Value.num 300)],
           [("date", Value.str "2024-01-02"), ("spend", Value.num 50),
            ("revenue", Value.num 10)]])),
        ("business.csv", FileContent.table (DF.mk ["date", "total revenue"]
          [[("date", Value.str "2024-01-02"), ("total revenue", Value.num 500)],
           [("date", Value.str "2024-01-03"), ("total revenue", Value.num 700)]]))]).1
      (load_data [("Facebook.csv", FileContent.table (DF.mk ["date", "spend", "revenue"]
          [[("date", Value.str "2024-01-01"), ("spend", Value.num 100),
            ("revenue", Value.num 300)],
           [("date", Value.str "2024-01-02"), ("spend", Value.num 50),
            ("revenue", Value.num 10)]])),
        ("business.csv", FileContent.table (DF.mk ["date", "total revenue"]
          [[("date", Value.str "2024-01-02"), ("total revenue", Value.num 500)],
           [("date", Value.str "2024-01-03"), ("total revenue", Value.num 700)]]))]).2 =
      .ok (DF.mk ["date", "total_revenue", "attributed_revenue"]
        [[("date", Value.date 2024 1 2), ("total_revenue", Value.num 500),
          ("attributed_revenue", Value.num 10)],
         [("date", Value.date 2024 1 3), ("total_revenue", Value.num 700),
          ("attributed_revenue", Value.na)]]) ∧
    (Value.date 2024 1 1 ∉ ([Value.date 2024 1 2, Value.date 2024 1 3] : List Value)) ∧
    Value.na ≠ Value.num 0 := by
  have hload1 : (load_data [("Facebook.csv", FileContent.table
      (DF.mk ["date", "spend", "revenue"]
        [[("date", Value.str "2024-01-01"), ("spend", Value.num 100),
          ("revenue", Value.num 300)],
         [("date", Value.str "2024-01-02"), ("spend", Value.num 50),
          ("revenue", Value.num 10)]])),
      ("business.csv", FileContent.table (DF.mk ["date", "total revenue"]
        [[("date", Value.str "2024-01-02"), ("total revenue", Value.num 500)],
         [("date", Value.str "2024-01-03"), ("total revenue", Value.num 700)]]))]).1 =
      DF.mk ["date", "spend", "revenue", "impressions", "clicks", "source"]
        [[("date", Value.date 2024 1 1), ("spend", Value.num 100),
          ("revenue", Value.num 300), ("impressions", Value.num 0),
          ("clicks", Value.num 0), ("source", Value.str "Facebook")],
         [("date", Value.date 2024 1 2), ("spend", Value.num 50),
          ("revenue", Value.num 10), ("impressions", Value.num 0),
          ("clicks", Value.num 0), ("source", Value.str "Facebook")]] := by
    with_unfolding_all rfl
  have hload2 : (load_data [("Facebook.csv", FileContent.table
      (DF.mk ["date", "spend", "revenue"]
        [[("date", Value.str "2024-01-01"), ("spend", Value.num 100),
          ("revenue", Value.num 300)],
         [("date", Value.str "2024-01-02"), ("spend", Value.num 50),
          ("revenue", Value.num 10)]])),
      ("business.csv", FileContent.table (DF.mk ["date", "total revenue"]
        [[("date", Value.str "2024-01-02"), ("total revenue", Value.num 500)],
         [("date", Value.str "2024-01-03"), ("total revenue", Value.num 700)]]))]).2 =
      DF.mk ["date", "total_revenue"]
        [[("date", Value.date 2024 1 2), ("total_revenue", Value.num 500)],
         [("date", Value.date 2024 1 3), ("total_revenue", Value.num 700)]] := by
    with_unfolding_all rfl
  refine ⟨?_, by decide, by decide⟩
  rw [hload1, hload2]
  with_unfolding_all rfl

lemma groupKeys_one_shape (df : DF) (c : String) (k : List Value)
    (hk : k ∈ groupKeys df [c]) :
    ∃ r0 ∈ df.rows, k = [rowGet r0 c] ∧ isNa (rowGet r0 c) = false := by
  obtain ⟨hv, r0, hr0, rfl⟩ := mem_groupKeys df [c] k hk
  refine ⟨r0, hr0, rfl, ?_⟩
  unfold validKey keyOf at hv
  simp only [List.map_cons, List.map_nil, List.all_cons, List.all_nil,
    Bool.and_true] at hv
  simpa using hv

lemma mem_groupKeys_one (df : DF) (c : String) (rb : Row) (hrb : rb ∈ df.rows)
    (hna : isNa (rowGet rb c) = false) : [rowGet rb c] ∈ groupKeys df [c] := by
  unfold groupKeys
  rw [List.mem_dedup, List.mem_filter]
  refine ⟨?_, ?_⟩
  · exact List.mem_map_of_mem (keyOf [c]) hrb
  · unfold validKey
    simp [hna]

/-- The business date rollup row for one key (app.py line 185). -/
def bdBuild (biz : DF) (k : List Value) : Row :=
  ["date"].zip k ++ ([("total_revenue", "total_revenue")] : List (String × String)).map
    (fun a => (a.1, Value.num (groupSumQ biz ["date"] k a.2)))

/-- The `mkt_day` row for one (date, source) key (app.py lines 180-183). -/
def mdRow (mkt : DF) (k : List Value) : Row :=
  ["date", "source"].zip k ++
    ([("spend", "spend"), ("revenue", "revenue")] : List (String × String)).map
      (fun a => (a.1, Value.num (groupSumQ mkt ["date", "source"] k a.2)))

/-- The `mkt_day` frame in closed form. -/
def mdDF (mkt : DF) : DF :=
  DF.mk (["date", "source"] ++ List.map Prod.fst
      ([("spend", "spend"), ("revenue", "revenue")] : List (String × String)))
    ((groupKeys mkt ["date", "source"]).map (mdRow mkt))

/-- The marketing attributed-revenue rollup row for one date key
(app.py line 186). -/
def attRow (mkt : DF) (k : List Value) : Row :=
  ["date"].zip k ++ ([("attributed_revenue", "revenue")] : List (String × String)).map
    (fun a => (a.1, Value.num (groupSumQ (mdDF mkt) ["date"] k a.2)))

/-- The marketing attributed-revenue rollup frame in closed form. -/
def attDF (mkt : DF) : DF :=
  DF.mk (["date"] ++ List.map Prod.fst
      ([("attributed_revenue", "revenue")] : List (String × String)))
    ((groupKeys (mdDF mkt) ["date"]).map (attRow mkt))

/-- The business rollup frame in closed form. -/
def bdDF (biz : DF) : DF :=
  DF.mk (["date"] ++ List.map Prod.fst
      ([("total_revenue", "total_revenue")] : List (String × String)))
    ((groupKeys biz ["date"]).map (bdBuild biz))

/-- Closed form of `rev_compare` under numeric-cell hypotheses. -/
lemma rev_compare_eq (mkt biz : DF)
    (hbd : biz.cols.contains "date" = true)
    (hbt : biz.cols.contains "total_revenue" = true)
    (hbnum : ∀ r ∈ biz.rows, numOrNa (rowGet r "total_revenue") = true)
    (hmd : mkt.cols.contains "date" = true)
    (hms : mkt.cols.contains "source" = true)
    (hmsp : mkt.cols.contains "spend" = true)
    (hmrv : mkt.cols.contains "revenue" = true)
    (hmnum : ∀ r ∈ mkt.rows, numOrNa (rowGet r "spend") = true ∧
      numOrNa (rowGet r "revenue") = true) :
    rev_compare mkt biz = .ok (mergeLeft (bdDF biz) (attDF mkt) "date") := by
  have hcells2 : ∀ r ∈ mkt.rows, ∀ a ∈ ([("spend", "spend"), ("revenue", "revenue")] :
      List (String × String)), numOrNa (rowGet r a.2) = true := by
    intro r hr a ha
    rcases List.mem_cons.mp ha with rfl | ha2
    · exact (hmnum r hr).1
    · rcases List.mem_cons.mp ha2 with rfl | ha3
      · exact (hmnum r hr).2
      · cases ha3
  have hd2 : "date" ∈ mkt.cols := by simpa [List.elem_eq_mem] using hmd
  have hs2 : "source" ∈ mkt.cols := by simpa [List.elem_eq_mem] using hms
  have hsp2 : "spend" ∈ mkt.cols := by simpa [List.elem_eq_mem] using hmsp
  have hrv2 : "revenue" ∈ mkt.cols := by simpa [List.elem_eq_mem] using hmrv
  have hbd2 : "date" ∈ biz.cols := by simpa [List.elem_eq_mem] using hbd
  have hbt2 : "total_revenue" ∈ biz.cols := by simpa [List.elem_eq_mem] using hbt
  have hgM := groupAgg_eq mkt ["date", "source"]
    [("spend", "spend"), ("revenue", "revenue")]
    (by simp [List.elem_eq_mem, hd2, hs2, hsp2, hrv2]) hcells2
  have hgB := groupAgg_eq biz ["date"] [("total_revenue", "total_revenue")]
    (by simp [List.elem_eq_mem, hbd2, hbt2])
    (by
      intro r hr a ha
      rcases List.mem_cons.mp ha with rfl | ha2
      · exact hbnum r hr
      · cases ha2)
  have hcellsA : ∀ r ∈ (mdDF mkt).rows, ∀ a ∈ ([("attributed_revenue", "revenue")] :
      List (String × String)), numOrNa (rowGet r a.2) = true := by
    intro r hr a ha
    rcases List.mem_cons.mp ha with rfl | ha2
    · obtain ⟨k, hkm, rfl⟩ := List.mem_map.mp hr
      obtain ⟨rk, _, rfl, _, _⟩ := groupKeys_two_shape mkt k hkm
      rfl
    · cases ha2
  have hgA := groupAgg_eq (mdDF mkt) ["date"] [("attributed_revenue", "revenue")]
    rfl hcellsA
  unfold rev_compare mkt_day
  rw [show (DF.mk (["date", "source"] ++ List.map Prod.fst
      ([("spend", "spend"), ("revenue", "revenue")] : List (String × String)))
      (List.map (fun k => ["date", "source"].zip k ++
        List.map (fun a => (a.1, Value.num (groupSumQ mkt ["date", "source"] k a.2)))
          ([("spend", "spend"), ("revenue", "revenue")] : List (String × String)))
        (groupKeys mkt ["date", "source"]))) = mdDF mkt from rfl] at hgM
  rw [hgM, bind_ok, hgB, bind_ok, hgA, bind_ok]
  rfl

/-- One left-row's contribution to the merge of the two rollups. -/
def perLR (mkt : DF) (lr : Row) : List Row :=
  if ((attDF mkt).rows.filter
      (fun rr => decide (rowGet rr "date" = rowGet lr "date"))).isEmpty then
    [lr ++ [("attributed_revenue", Value.na)]]
  else
    ((attDF mkt).rows.filter
      (fun rr => decide (rowGet rr "date" = rowGet lr "date"))).map
      (fun rr => lr ++ [("attributed_revenue", rowGet rr "attributed_revenue")])

lemma merge_rows (mkt biz : DF) :
    (mergeLeft (bdDF biz) (attDF mkt) "date").rows =
      List.flatten (((groupKeys biz ["date"]).map (bdBuild biz)).map (perLR mkt)) := rfl

lemma perLR_ne_nil (mkt : DF) (lr : Row) : perLR mkt lr ≠ [] := by
  unfold perLR
  cases hms : ((attDF mkt).rows.filter
      (fun rr => decide (rowGet rr "date" = rowGet lr "date"))).isEmpty with
  | true => simp [hms]
  | false =>
    rw [if_neg (by simp [hms])]
    rw [Ne, List.map_eq_nil_iff]
    intro h
    rw [h] at hms
    cases hms

lemma perLR_bd_date (mkt biz : DF) (d : Value) (row : Row)
    (hrow : row ∈ perLR mkt (bdBuild biz [d])) : rowGet row "date" = d := by
  unfold perLR at hrow
  cases hms : ((attDF mkt).rows.filter
      (fun rr => decide (rowGet rr "date" = rowGet (bdBuild biz [d]) "date"))).isEmpty with
  | true =>
    rw [if_pos hms] at hrow
    rcases List.mem_cons.mp hrow with rfl | hc
    · rfl
    · cases hc
  | false =>
    rw [if_neg (by simp [hms])] at hrow
    obtain ⟨rr, _, rfl⟩ := List.mem_map.mp hrow
    rfl

lemma perLR_na_of_no_match (mkt biz : DF) (d : Value) (row : Row)
    (hrow : row ∈ perLR mkt (bdBuild biz [d]))
    (hno : ∀ rr ∈ (attDF mkt).rows, rowGet rr "date" ≠ d) :
    rowGet row "attributed_revenue" = Value.na := by
  have hms : ((attDF mkt).rows.filter
      (fun rr => decide (rowGet rr "date" = rowGet (bdBuild biz [d]) "date"))) = [] := by
    rw [List.filter_eq_nil_iff]
    intro rr hrr
    simp only [decide_eq_true_eq]
    exact fun h => hno rr hrr h
  unfold perLR at hrow
  rw [hms] at hrow
  rw [if_pos List.isEmpty_nil] at hrow
  rcases List.mem_cons.mp hrow with rfl | hc
  · rfl
  · cases hc

lemma attDF_row_date (mkt : DF) (rr : Row) (hrr : rr ∈ (attDF mkt).rows) :
    ∃ rm ∈ mkt.rows, rowGet rr "date" = rowGet rm "date" := by
  obtain ⟨k, hk, rfl⟩ := List.mem_map.mp hrr
  obtain ⟨r0, hr0, rfl, hna⟩ := groupKeys_one_shape (mdDF mkt) "date" k hk
  obtain ⟨k2, hk2, rfl⟩ := List.mem_map.mp hr0
  obtain ⟨rm, hrm, rfl, _, _⟩ := groupKeys_two_shape mkt k2 hk2
  exact ⟨rm, hrm, rfl⟩

/-- C2: the reconciliation join (app.py lines 184-188) is a left join keyed
by date whose LEFT side is the date-collapsed BUSINESS rollup, not the
marketing rollup, and unmatched fields stay null: the joined table's dates
are exactly the non-null business dates (marketing-only dates are dropped),
and a business date with no marketing row keeps a null, not 0,
attributed_revenue. -/
theorem C2_join_business_left (mkt biz rc : DF)
    (hbd : biz.cols.contains "date" = true)
    (hbt : biz.cols.contains "total_revenue" = true)
    (hbnum : ∀ r ∈ biz.rows, numOrNa (rowGet r "total_revenue") = true)
    (hmd : mkt.cols.contains "date" = true)
    (hmsc : mkt.cols.contains "source" = true)
    (hmsp : mkt.cols.contains "spend" = true)
    (hmrv : mkt.cols.contains "revenue" = true)
    (hmnum : ∀ r ∈ mkt.rows, numOrNa (rowGet r "spend") = true ∧
      numOrNa (rowGet r "revenue") = true)
    (hok : rev_compare mkt biz = .ok rc) :
    (∀ d : Value, (d ∈ rc.rows.map (fun row => rowGet row "date")) ↔
      (isNa d = false ∧ ∃ rb ∈ biz.rows, rowGet rb "date" = d)) ∧
    (∀ row ∈ rc.rows, (∀ rm ∈ mkt.rows, rowGet rm "date" ≠ rowGet row "date") →
      rowGet row "attributed_revenue" = Value.na) := by
  rw [rev_compare_eq mkt biz hbd hbt hbnum hmd hmsc hmsp hmrv hmnum] at hok
  injection hok with hok
  subst hok
  constructor
  · intro d
    rw [merge_rows]
    constructor
    · intro hd
      obtain ⟨row, hrow, rfl⟩ := List.mem_map.mp hd
      rw [List.mem_flatten] at hrow
      obtain ⟨lrows, hlrows, hrowin⟩ := hrow
      obtain ⟨lr, hlr, rfl⟩ := List.mem_map.mp hlrows
      obtain ⟨k, hkm, rfl⟩ := List.mem_map.mp hlr
      obtain ⟨rb, hrb, hkeq, hna⟩ := groupKeys_one_shape biz "date" k hkm
      subst hkeq
      rw [perLR_bd_date mkt biz (rowGet rb "date") row hrowin]
      exact ⟨hna, rb, hrb, rfl⟩
    · rintro ⟨hna, rb, hrb, rfl⟩
      have hk := mem_groupKeys_one biz "date" rb hrb hna
      obtain ⟨row, hrowin⟩ := List.exists_mem_of_ne_nil _
        (perLR_ne_nil mkt (bdBuild biz [rowGet rb "date"]))
      refine List.mem_map.mpr ⟨row, ?_, perLR_bd_date mkt biz _ row hrowin⟩
      rw [List.mem_flatten]
      exact ⟨perLR mkt (bdBuild biz [rowGet rb "date"]),
        List.mem_map.mpr ⟨bdBuild biz [rowGet rb "date"],
          List.mem_map.mpr ⟨[rowGet rb "date"], hk, rfl⟩, rfl⟩, hrowin⟩
  · intro row hrow hno
    rw [merge_rows, List.mem_flatten] at hrow
    obtain ⟨lrows, hlrows, hrowin⟩ := hrow
    obtain ⟨lr, hlr, rfl⟩ := List.mem_map.mp hlrows
    obtain ⟨k, hkm, rfl⟩ := List.mem_map.mp hlr
    obtain ⟨rb, hrb, hkeq, hna⟩ := groupKeys_one_shape biz "date" k hkm
    subst hkeq
    have hdate := perLR_bd_date mkt biz (rowGet rb "date") row hrowin
    apply perLR_na_of_no_match mkt biz (rowGet rb "date") row hrowin
    intro rr hrr
    obtain ⟨rm, hrm, heq⟩ := attDF_row_date mkt rr hrr
    rw [heq]
    exact fun hcontra => hno rm hrm (hcontra.trans hdate.symm)

def c2wMkt : DF := ⟨["date", "source", "spend", "revenue"],
  [[("date", Value.date 2024 1 1), ("source", Value.str "Facebook"),
    ("spend", Value.num 100), ("revenue", Value.num 10)]]⟩

def c2wBiz : DF := ⟨["date", "total_revenue"],
  [[("date", Value.date 2024 1 2), ("total_revenue", Value.num 500)]]⟩

def c2wRC : DF := ⟨["date", "total_revenue", "attributed_revenue"],
  [[("date", Value.date 2024 1 2), ("total_revenue", Value.num 500),
    ("attributed_revenue", Value.na)]]⟩

set_option maxRecDepth 40000 in
theorem C2_join_business_left_witness :
    Value.date 2024 1 2 ∈ c2wRC.rows.map (fun row => rowGet row "date") := by
  have h := C2_join_business_left c2wMkt c2wBiz c2wRC rfl rfl (by decide)
    rfl rfl rfl rfl (by decide) (by with_unfolding_all rfl)
  exact (h.1 (Value.date 2024 1 2)).mpr
    ⟨rfl, [("date", Value.date 2024 1 2), ("total_revenue", Value.num 500)],
      List.Mem.head _, rfl⟩

/-! ## Claim C7 -/

lemma colE_ok (df : DF) (c : String) (h : df.cols.contains c = true) :
    colE df c = .ok (df.rows.map (fun r => rowGet r c)) := by
  unfold colE
  rw [if_pos h]

lemma sumValsE_col (df : DF) (c : String)
    (h : ∀ r ∈ df.rows, numOrNa (rowGet r c) = true) :
    sumValsE (df.rows.map (fun r => rowGet r c)) =
      .ok (.num ((df.rows.map (fun r => qOf (rowGet r c))).sum)) := by
  rw [sumValsE_num _ (by
    intro v hv
    obtain ⟨r, hr, rfl⟩ := List.mem_map.mp hv
    exact h r hr)]
  rw [List.map_map]
  rfl

lemma numOrNa_of_isNumV (v : Value) (h : isNumV v = true) : numOrNa v = true := by
  cases v <;> simp_all [isNumV, numOrNa]

lemma rows_ne_nil_of_not_emptyB (df : DF) (h : df.isEmptyB = false) :
    df.rows ≠ [] := by
  unfold DF.isEmptyB at h
  rw [Bool.or_eq_false_iff] at h
  intro hn
  rw [hn] at h
  exact absurd h.1 (by simp)

lemma insertDesc_length (col : String) (r : Row) (l : List Row) :
    (insertDesc col r l).length = l.length + 1 := by
  induction l with
  | nil => rfl
  | cons r2 rest ih =>
    unfold insertDesc
    by_cases h : sortBefore (rowGet r col) (rowGet r2 col) = true
    · rw [if_pos h]
      simp
    · rw [if_neg h]
      simp [ih]

lemma foldl_insertDesc_length (col : String) (rs : List Row) :
    ∀ acc : List Row,
      (rs.foldl (fun a r => insertDesc col r a) acc).length =
        acc.length + rs.length := by
  induction rs with
  | nil => intro acc; simp
  | cons r rest ih =>
    intro acc
    rw [List.foldl_cons, ih, insertDesc_length, List.length_cons]
    omega

lemma sortValuesDesc_ok (df : DF) (col : String)
    (hc : df.cols.contains col = true)
    (hall : ∀ r ∈ df.rows, sortKeyOk (rowGet r col) = true) :
    ∃ rows2 : List Row, sortValuesDesc df col = .ok ⟨df.cols, rows2⟩ ∧
      rows2.length = df.rows.length := by
  unfold sortValuesDesc
  rw [if_pos (by
    rw [Bool.and_eq_true]
    exact ⟨hc, List.all_eq_true.mpr hall⟩)]
  refine ⟨_, rfl, ?_⟩
  rw [foldl_insertDesc_length]
  simp

lemma safe_read_wfM (fs : FS) (p : String) (h : mktStateOK (fsGet fs p)) :
    wellFormedMkt (safe_read fs p) = true := by
  unfold safe_read
  cases hf : fsGet fs p with
  | none => rfl
  | some fc =>
    cases fc with
    | malformedFile => rfl
    | table df =>
      rw [hf] at h
      exact h

lemma safe_read_wfB (fs : FS) (p : String) (h : bizStateOK (fsGet fs p)) :
    wellFormedBiz (safe_read fs p) = true := by
  unfold safe_read
  cases hf : fsGet fs p with
  | none => rfl
  | some fc =>
    cases fc with
    | malformedFile => rfl
    | table df =>
      rw [hf] at h
      exact h

lemma cp_row_cells (mkt : DF) (r : Row)
    (hr : r ∈ ((groupKeys mkt ["source"]).map (srcAggRow mkt)).map roasRow) :
    isNumV (rowGet r "spend") = true ∧ isNumV (rowGet r "revenue") = true ∧
      sortKeyOk (rowGet r "roas") = true := by
  obtain ⟨r0, hr0, rfl⟩ := List.mem_map.mp hr
  obtain ⟨k, hk, rfl⟩ := List.mem_map.mp hr0
  obtain ⟨x, rfl, _⟩ := groupKeys_src_shape mkt k hk
  rw [roasRow_srcAggRow]
  refine ⟨rfl, rfl, ?_⟩
  show sortKeyOk (if groupSumQ mkt ["source"] [x] "spend" = 0 then Value.na
    else Value.num (groupSumQ mkt ["source"] [x] "revenue" /
      groupSumQ mkt ["source"] [x] "spend")) = true
  by_cases hz : groupSumQ mkt ["source"] [x] "spend" = 0
  · rw [if_pos hz]
    rfl
  · rw [if_neg hz]
    rfl

lemma cacDf_ok (cp : DF) (tq : ℚ) (gm : Value)
    (hnum : ∀ r ∈ cp.rows, isNumV (rowGet r "spend") = true) :
    ∃ d, cacDf cp (.num tq) gm = .ok d := by
  unfold cacDf
  rw [show gtE (Value.num tq) 0 = .ok (decide (0 < tq)) from rfl, bind_ok]
  by_cases hb : (0 : ℚ) < tq
  · rw [decide_eq_true hb]
    rw [show cp.rows.mapM (fun r =>
        (if (true : Bool) then divVal (rowGet r "spend") (Value.num tq)
          else pure (Value.num 0)) >>= fun c =>
          pure (r ++ [("cac", c), ("gm_per_order", gm)])) =
      .ok (cp.rows.map (fun r => r ++
        [("cac", if tq = 0 then Value.na else Value.num (qOf (rowGet r "spend") / tq)),
         ("gm_per_order", gm)])) from by
        apply mapM_ok
        intro r hr
        obtain ⟨a, ha⟩ := isNumV_num _ (hnum r hr)
        rw [ha]
        rfl]
    rw [bind_ok]
    exact ⟨_, rfl⟩
  · rw [decide_eq_false hb]
    rw [show cp.rows.mapM (fun r =>
        (if (false : Bool) then divVal (rowGet r "spend") (Value.num tq)
          else pure (Value.num 0)) >>= fun c =>
          pure (r ++ [("cac", c), ("gm_per_order", gm)])) =
      .ok (cp.rows.map (fun r => r ++ [("cac", Value.num 0), ("gm_per_order", gm)])) from
        mapM_ok _ _ _ (fun r _ => rfl)]
    rw [bind_ok]
    exact ⟨_, rfl⟩

lemma cacInsight_ok (mkt biz : DF)
    (hmc : mkt.cols.contains "spend" = true)
    (hmn : ∀ r ∈ mkt.rows, numOrNa (rowGet r "spend") = true)
    (hbn : ∀ r ∈ biz.rows, numOrNa (rowGet r "new_orders") = true) :
    ∃ q : ℚ, cacInsight mkt biz = .ok (.num q) := by
  unfold cacInsight
  by_cases hbc : biz.cols.contains "new_orders" = true
  · rw [if_pos hbc, colE_ok biz "new_orders" hbc, bind_ok, sumValsE_col biz "new_orders" hbn,
      bind_ok]
    rw [show gtE (Value.num ((biz.rows.map (fun r => qOf (rowGet r "new_orders"))).sum)) 0 =
      .ok (decide (0 < (biz.rows.map (fun r => qOf (rowGet r "new_orders"))).sum)) from rfl,
      bind_ok]
    by_cases hq : 0 < (biz.rows.map (fun r => qOf (rowGet r "new_orders"))).sum
    · rw [if_pos (by rw [decide_eq_true hq]), colE_ok mkt "spend" hmc, bind_ok,
        sumValsE_col mkt "spend" hmn, bind_ok]
      rw [show (divVal (Value.num ((mkt.rows.map (fun r => qOf (rowGet r "spend"))).sum))
          (Value.num ((biz.rows.map (fun r => qOf (rowGet r "new_orders"))).sum))) =
        .ok (if (biz.rows.map (fun r => qOf (rowGet r "new_orders"))).sum = 0
          then Value.na
          else Value.num ((mkt.rows.map (fun r => qOf (rowGet r "spend"))).sum /
            (biz.rows.map (fun r => qOf (rowGet r "new_orders"))).sum)) from rfl]
      rw [if_neg hq.ne.symm]
      exact ⟨_, rfl⟩
    · rw [if_neg (by rw [decide_eq_false hq]; exact Bool.false_ne_true)]
      exact ⟨0, rfl⟩
  · rw [if_neg hbc]
    exact ⟨0, rfl⟩

lemma mapM_divVal_ok (rs : List Row) (c : String) (q : ℚ)
    (h : ∀ r ∈ rs, isNumV (rowGet r c) = true) :
    rs.mapM (fun r => divVal (rowGet r c) (Value.num q)) =
      .ok (rs.map (fun r =>
        if q = 0 then Value.na else Value.num (qOf (rowGet r c) / q))) := by
  apply mapM_ok
  intro r hr
  obtain ⟨a, ha⟩ := isNumV_num _ (h r hr)
  rw [ha]
  rfl

lemma kpiSum_ok (biz : DF) (c : String) (hc : c ∈ bizNumCols) (hB : BizOK biz) :
    ∃ q : ℚ, (if biz.cols.contains c then colE biz c >>= fun l => sumValsE l
      else pure (.num 0)) = .ok (.num q) := by
  by_cases h : biz.cols.contains c = true
  · rw [if_pos h, colE_ok biz c h, bind_ok,
      sumValsE_col biz c (fun r hr => hB r hr c hc)]
    exact ⟨_, rfl⟩
  · rw [if_neg h]
    exact ⟨0, rfl⟩

lemma kpiFmt_ok (biz : DF) (c : String) (hc : c ∈ bizNumCols) (hB : BizOK biz) :
    ∃ s : String, (if biz.cols.contains c then
        colE biz c >>= fun l => sumValsE l >>= fun s => fmtNum s
      else pure "") = .ok s := by
  by_cases h : biz.cols.contains c = true
  · rw [if_pos h, colE_ok biz c h, bind_ok,
      sumValsE_col biz c (fun r hr => hB r hr c hc), bind_ok]
    exact ⟨_, rfl⟩
  · rw [if_neg h]
    exact ⟨"", rfl⟩

lemma sec1_ok (biz : DF) (h : biz.isEmptyB = true ∨ BizOK biz) : sec1 biz = .ok () := by
  unfold sec1
  by_cases he : biz.isEmptyB = true
  · rw [he]
    rfl
  · obtain (hF | hB) := h
    · exact absurd hF he
    · have he2 : biz.isEmptyB = false := Bool.eq_false_iff.mpr he
      rw [he2]
      obtain ⟨q1, h1⟩ := kpiSum_ok biz "orders" (by decide) hB
      obtain ⟨q2, h2⟩ := kpiSum_ok biz "new_orders" (by decide) hB
      obtain ⟨s3, h3⟩ := kpiFmt_ok biz "new_customers" (by decide) hB
      obtain ⟨s4, h4⟩ := kpiFmt_ok biz "total_revenue" (by decide) hB
      obtain ⟨s5, h5⟩ := kpiFmt_ok biz "gross_profit" (by decide) hB
      rw [h1, bind_ok, h2, bind_ok,
        show fmtNum (Value.num q1) = .ok (toString q1) from rfl, bind_ok,
        h3, bind_ok, h4, bind_ok, h5, bind_ok]
      rfl

lemma sec2_ok (mkt : DF) (hM : MOK mkt) : sec2 mkt = .ok () := by
  unfold sec2
  by_cases he : mkt.isEmptyB = true
  · rw [he]
    rfl
  · have he2 : mkt.isEmptyB = false := Bool.eq_false_iff.mpr he
    rw [he2]
    have hne := rows_ne_nil_of_not_emptyB mkt he2
    have hcols := hM.2 hne
    rw [Bool.and_eq_true, Bool.and_eq_true, Bool.and_eq_true] at hcols
    obtain ⟨⟨⟨hsp, hrv⟩, hsc⟩, hdt⟩ := hcols
    unfold spend_by_source rev_by_source
    rw [groupAgg_eq mkt ["source"] [("spend", "spend")]
        (by
          have m1 : "source" ∈ mkt.cols := by simpa [List.elem_eq_mem] using hsc
          have m2 : "spend" ∈ mkt.cols := by simpa [List.elem_eq_mem] using hsp
          simp [List.all_cons, List.all_nil, m1, m2])
        (fun r hr a ha => by
          rcases List.mem_cons.mp ha with rfl | h2
          · exact (hM.1 r hr).1
          · cases h2),
      bind_ok,
      groupAgg_eq mkt ["source"] [("revenue", "revenue")]
        (by
          have m1 : "source" ∈ mkt.cols := by simpa [List.elem_eq_mem] using hsc
          have m2 : "revenue" ∈ mkt.cols := by simpa [List.elem_eq_mem] using hrv
          simp [List.all_cons, List.all_nil, m1, m2])
        (fun r hr a ha => by
          rcases List.mem_cons.mp ha with rfl | h2
          · exact (hM.1 r hr).2.1
          · cases h2),
      bind_ok]
    rfl

lemma sec3_ok (mkt : DF) (hM : MOK mkt) : sec3 mkt = .ok () := by
  unfold sec3
  by_cases he : mkt.isEmptyB = true
  · rw [he]
    rfl
  · have he2 : mkt.isEmptyB = false := Bool.eq_false_iff.mpr he
    rw [he2]
    have hne := rows_ne_nil_of_not_emptyB mkt he2
    have hcols := hM.2 hne
    rw [Bool.and_eq_true, Bool.and_eq_true, Bool.and_eq_true] at hcols
    obtain ⟨⟨⟨hsp, hrv⟩, hsc⟩, hdt⟩ := hcols
    unfold day_rollup
    rw [groupAgg_eq mkt ["date"] [("spend", "spend"), ("revenue", "revenue")]
        (by
          have m1 : "date" ∈ mkt.cols := by simpa [List.elem_eq_mem] using hdt
          have m2 : "spend" ∈ mkt.cols := by simpa [List.elem_eq_mem] using hsp
          have m3 : "revenue" ∈ mkt.cols := by simpa [List.elem_eq_mem] using hrv
          simp [List.all_cons, List.all_nil, m1, m2, m3])
        (fun r hr a ha => by
          rcases List.mem_cons.mp ha with rfl | h2
          · exact (hM.1 r hr).1
          · rcases List.mem_cons.mp h2 with rfl | h3
            · exact (hM.1 r hr).2.1
            · cases h3),
      bind_ok]
    rfl

lemma sec6_ok (cp biz : DF)
    (hcp : ∀ r ∈ cp.rows, isNumV (rowGet r "spend") = true)
    (hb : biz.isEmptyB = true ∨ BizOK biz) : sec6 cp biz = .ok () := by
  unfold sec6
  by_cases hg : (!biz.isEmptyB && biz.cols.contains "orders" &&
      biz.cols.contains "new_orders") = true
  · rw [if_pos hg]
    rw [Bool.and_eq_true, Bool.and_eq_true] at hg
    obtain ⟨⟨hbe, hor⟩, hno⟩ := hg
    have hB : BizOK biz := by
      rcases hb with h | h
      · rw [h] at hbe
        cases hbe
      · exact h
    rw [colE_ok biz "orders" hor, bind_ok,
      sumValsE_col biz "orders" (fun r hr => hB r hr _ (by decide)), bind_ok,
      colE_ok biz "new_orders" hno, bind_ok,
      sumValsE_col biz "new_orders" (fun r hr => hB r hr _ (by decide)), bind_ok]
    rw [show gtE (Value.num ((biz.rows.map (fun r => qOf (rowGet r "orders"))).sum)) 0 =
      .ok (decide (0 < (biz.rows.map (fun r => qOf (rowGet r "orders"))).sum)) from rfl,
      bind_ok]
    rw [show gtE (Value.num ((biz.rows.map (fun r => qOf (rowGet r "new_orders"))).sum)) 0 =
      .ok (decide (0 < (biz.rows.map (fun r => qOf (rowGet r "new_orders"))).sum)) from rfl,
      bind_ok]
    by_cases hord : 0 < (biz.rows.map (fun r => qOf (rowGet r "orders"))).sum
    · by_cases hnoq : 0 < (biz.rows.map (fun r => qOf (rowGet r "new_orders"))).sum
      · rw [decide_eq_true hord, decide_eq_true hnoq]
        have hgm : ∃ gq : ℚ, (if biz.cols.contains "gross_profit" then
            colE biz "gross_profit" >>= fun gpL =>
            sumValsE gpL >>= fun gp =>
            divVal gp (Value.num ((biz.rows.map (fun r => qOf (rowGet r "orders"))).sum))
          else pure (Value.num 0)) = .ok (.num gq) := by
          by_cases hgp : biz.cols.contains "gross_profit" = true
          · rw [if_pos hgp, colE_ok biz "gross_profit" hgp, bind_ok,
              sumValsE_col biz "gross_profit" (fun r hr => hB r hr _ (by decide)), bind_ok]
            rw [show divVal
                (Value.num ((biz.rows.map (fun r => qOf (rowGet r "gross_profit"))).sum))
                (Value.num ((biz.rows.map (fun r => qOf (rowGet r "orders"))).sum)) =
              .ok (if ((biz.rows.map (fun r => qOf (rowGet r "orders"))).sum) = 0
                then Value.na
                else Value.num ((biz.rows.map (fun r => qOf (rowGet r "gross_profit"))).sum /
                  (biz.rows.map (fun r => qOf (rowGet r "orders"))).sum)) from rfl]
            rw [if_neg hord.ne.symm]
            exact ⟨_, rfl⟩
          · rw [if_neg hgp]
            exact ⟨0, rfl⟩
        obtain ⟨gq, hgmE⟩ := hgm
        rw [hgmE, bind_ok]
        obtain ⟨d, hd⟩ := cacDf_ok cp
          ((biz.rows.map (fun r => qOf (rowGet r "new_orders"))).sum) (.num gq) hcp
        rw [hd, bind_ok]
        rfl
      · rw [decide_eq_false hnoq, Bool.and_false]
        rfl
    · rw [decide_eq_false hord, Bool.false_and]
      rfl
  · rw [if_neg hg]
    rfl

lemma sec7_ok (mkt biz : DF) (hM : MOK mkt) (hne : mkt.rows ≠ [])
    (hb : biz.isEmptyB = true ∨ BizOK biz) : sec7 mkt biz = .ok () := by
  unfold sec7
  by_cases hg : (!biz.isEmptyB && biz.cols.contains "total_revenue" &&
      biz.cols.contains "date") = true
  · rw [if_pos hg]
    rw [Bool.and_eq_true, Bool.and_eq_true] at hg
    obtain ⟨⟨hbe, hbt⟩, hbd⟩ := hg
    have hB : BizOK biz := by
      rcases hb with h | h
      · rw [h] at hbe
        cases hbe
      · exact h
    have hcols := hM.2 hne
    rw [Bool.and_eq_true, Bool.and_eq_true, Bool.and_eq_true] at hcols
    obtain ⟨⟨⟨hsp, hrv⟩, hsc⟩, hdt⟩ := hcols
    rw [rev_compare_eq mkt biz hbd hbt
      (fun r hr => hB r hr "total_revenue" (by decide))
      hdt hsc hsp hrv
      (fun r hr => ⟨(hM.1 r hr).1, (hM.1 r hr).2.1⟩), bind_ok]
    rfl
  · rw [if_neg hg]
    rfl

lemma sec8insight_ok (mkt biz : DF)
    (hmc : mkt.cols.contains "spend" = true)
    (hmn : ∀ r ∈ mkt.rows, numOrNa (rowGet r "spend") = true)
    (hb : biz.isEmptyB = true ∨ BizOK biz) : sec8insight mkt biz = .ok () := by
  unfold sec8insight
  by_cases hg : (!biz.isEmptyB && biz.cols.contains "orders" &&
      biz.cols.contains "gross_profit") = true
  · rw [if_pos hg]
    rw [Bool.and_eq_true, Bool.and_eq_true] at hg
    obtain ⟨⟨hbe, hor⟩, hgp⟩ := hg
    have hB : BizOK biz := by
      rcases hb with h | h
      · rw [h] at hbe
        cases hbe
      · exact h
    rw [colE_ok biz "orders" hor, bind_ok,
      sumValsE_col biz "orders" (fun r hr => hB r hr _ (by decide)), bind_ok]
    rw [show gtE (Value.num ((biz.rows.map (fun r => qOf (rowGet r "orders"))).sum)) 0 =
      .ok (decide (0 < (biz.rows.map (fun r => qOf (rowGet r "orders"))).sum)) from rfl,
      bind_ok]
    have hgm : ∃ gq : ℚ,
        (if decide (0 < (biz.rows.map (fun r => qOf (rowGet r "orders"))).sum) then
          colE biz "gross_profit" >>= fun gpL =>
          sumValsE gpL >>= fun gp =>
          divVal gp (Value.num ((biz.rows.map (fun r => qOf (rowGet r "orders"))).sum))
        else pure (Value.num 0)) = .ok (.num gq) := by
      by_cases hpos : 0 < (biz.rows.map (fun r => qOf (rowGet r "orders"))).sum
      · rw [decide_eq_true hpos, colE_ok biz "gross_profit" hgp, bind_ok,
          sumValsE_col biz "gross_profit" (fun r hr => hB r hr _ (by decide)), bind_ok]
        rw [show divVal
            (Value.num ((biz.rows.map (fun r => qOf (rowGet r "gross_profit"))).sum))
            (Value.num ((biz.rows.map (fun r => qOf (rowGet r "orders"))).sum)) =
          .ok (if ((biz.rows.map (fun r => qOf (rowGet r "orders"))).sum) = 0
            then Value.na
            else Value.num ((biz.rows.map (fun r => qOf (rowGet r "gross_profit"))).sum /
              (biz.rows.map (fun r => qOf (rowGet r "orders"))).sum)) from rfl]
        rw [if_neg hpos.ne.symm]
        exact ⟨_, rfl⟩
      · rw [decide_eq_false hpos]
        exact ⟨0, rfl⟩
    obtain ⟨gq, hgmE⟩ := hgm
    rw [hgmE, bind_ok]
    obtain ⟨cq, hci⟩ := cacInsight_ok mkt biz hmc hmn
      (fun r hr => hB r hr _ (by decide))
    rw [hci, bind_ok]
    rw [show gtVV (Value.num cq) (Value.num gq) = .ok (decide (gq < cq)) from rfl, bind_ok]
    rfl
  · rw [if_neg hg]
    rfl

lemma sec8top_ok (cp : DF)
    (hcr : cp.cols.contains "roas" = true)
    (hsort : ∀ r ∈ cp.rows, sortKeyOk (rowGet r "roas") = true) :
    sec8top cp = .ok () := by
  unfold sec8top
  by_cases he : cp.isEmptyB = true
  · rw [he]
    rfl
  · have he2 : cp.isEmptyB = false := Bool.eq_false_iff.mpr he
    rw [he2]
    obtain ⟨rows2, hsv, hlen⟩ := sortValuesDesc_ok cp "roas" hcr hsort
    rw [hsv, bind_ok]
    have hne := rows_ne_nil_of_not_emptyB cp he2
    cases rows2 with
    | nil => exact absurd (List.length_eq_zero.mp hlen.symm).symm (fun h => hne h.symm)
    | cons r t => rfl

lemma sec8mix_ok (biz : DF) (hb : biz.isEmptyB = true ∨ BizOK biz) :
    sec8mix biz = .ok () := by
  unfold sec8mix
  by_cases hg : (!biz.isEmptyB && biz.cols.contains "orders" &&
      biz.cols.contains "new_orders") = true
  · rw [if_pos hg]
    rw [Bool.and_eq_true, Bool.and_eq_true] at hg
    obtain ⟨⟨hbe, hor⟩, hno⟩ := hg
    have hB : BizOK biz := by
      rcases hb with h | h
      · rw [h] at hbe
        cases hbe
      · exact h
    rw [colE_ok biz "new_orders" hno, bind_ok,
      sumValsE_col biz "new_orders" (fun r hr => hB r hr _ (by decide)), bind_ok,
      colE_ok biz "orders" hor, bind_ok,
      sumValsE_col biz "orders" (fun r hr => hB r hr _ (by decide)), bind_ok]
    rw [show maxE (Value.num ((biz.rows.map (fun r => qOf (rowGet r "orders"))).sum)) 1 =
      .ok (.num (max ((biz.rows.map (fun r => qOf (rowGet r "orders"))).sum) 1)) from rfl,
      bind_ok]
    rw [show divVal (Value.num ((biz.rows.map (fun r => qOf (rowGet r "new_orders"))).sum))
        (Value.num (max ((biz.rows.map (fun r => qOf (rowGet r "orders"))).sum) 1)) =
      .ok (if (max ((biz.rows.map (fun r => qOf (rowGet r "orders"))).sum) 1) = 0
        then Value.na
        else Value.num ((biz.rows.map (fun r => qOf (rowGet r "new_orders"))).sum /
          (max ((biz.rows.map (fun r => qOf (rowGet r "orders"))).sum) 1))) from rfl,
      bind_ok]
    rw [if_neg (lt_of_lt_of_le one_pos
      (le_max_right ((biz.rows.map (fun r => qOf (rowGet r "orders"))).sum) 1)).ne.symm]
    rw [show gtE (Value.num ((biz.rows.map (fun r => qOf (rowGet r "new_orders"))).sum /
        (max ((biz.rows.map (fun r => qOf (rowGet r "orders"))).sum) 1))) (1 / 2) =
      .ok (decide ((1 : ℚ) / 2 <
        (biz.rows.map (fun r => qOf (rowGet r "new_orders"))).sum /
        (max ((biz.rows.map (fun r => qOf (rowGet r "orders"))).sum) 1))) from rfl,
      bind_ok]
    rfl
  · rw [if_neg hg]
    rfl

lemma sec8_ok (mkt biz cp : DF) (hM : MOK mkt) (hne : mkt.rows ≠ [])
    (hb : biz.isEmptyB = true ∨ BizOK biz)
    (hcr : cp.cols.contains "roas" = true)
    (hsort : ∀ r ∈ cp.rows, sortKeyOk (rowGet r "roas") = true) :
    sec8 mkt biz cp = .ok () := by
  have hcols := hM.2 hne
  rw [Bool.and_eq_true, Bool.and_eq_true, Bool.and_eq_true] at hcols
  obtain ⟨⟨⟨hsp, hrv⟩, hsc⟩, hdt⟩ := hcols
  unfold sec8
  rw [colE_ok mkt "spend" hsp, bind_ok,
    sumValsE_col mkt "spend" (fun r hr => (hM.1 r hr).1), bind_ok]
  rw [show gtE (Value.num ((mkt.rows.map (fun r => qOf (rowGet r "spend"))).sum)) 0 =
    .ok (decide (0 < (mkt.rows.map (fun r => qOf (rowGet r "spend"))).sum)) from rfl,
    bind_ok]
  have hroas : ∃ rq : ℚ,
      (if decide (0 < (mkt.rows.map (fun r => qOf (rowGet r "spend"))).sum) then
        colE mkt "revenue" >>= fun trL =>
        sumValsE trL >>= fun tr =>
        divVal tr (Value.num ((mkt.rows.map (fun r => qOf (rowGet r "spend"))).sum))
      else pure (Value.num 0)) = .ok (.num rq) := by
    by_cases hpos : 0 < (mkt.rows.map (fun r => qOf (rowGet r "spend"))).sum
    · rw [decide_eq_true hpos, colE_ok mkt "revenue" hrv, bind_ok,
        sumValsE_col mkt "revenue" (fun r hr => (hM.1 r hr).2.1), bind_ok]
      rw [show divVal (Value.num ((mkt.rows.map (fun r => qOf (rowGet r "revenue"))).sum))
          (Value.num ((mkt.rows.map (fun r => qOf (rowGet r "spend"))).sum)) =
        .ok (if ((mkt.rows.map (fun r => qOf (rowGet r "spend"))).sum) = 0
          then Value.na
          else Value.num ((mkt.rows.map (fun r => qOf (rowGet r "revenue"))).sum /
            (mkt.rows.map (fun r => qOf (rowGet r "spend"))).sum)) from rfl]
      rw [if_neg hpos.ne.symm]
      exact ⟨_, rfl⟩
    · rw [decide_eq_false hpos]
      exact ⟨0, rfl⟩
  obtain ⟨rq, hrE⟩ := hroas
  rw [hrE, bind_ok]
  rw [show gtE (Value.num rq) 2 = .ok (decide (2 < rq)) from rfl, bind_ok]
  have hlt : ∃ bb : Bool,
      (if !(decide (2 < rq)) then ltE (Value.num rq) 1 else pure false) = .ok bb := by
    by_cases h2 : (2 : ℚ) < rq
    · rw [decide_eq_true h2]
      exact ⟨false, rfl⟩
    · rw [decide_eq_false h2]
      exact ⟨_, rfl⟩
  obtain ⟨bb, hbbE⟩ := hlt
  rw [hbbE, bind_ok]
  rw [sec8insight_ok mkt biz hsp (fun r hr => (hM.1 r hr).1) hb, bind_ok]
  rw [sec8top_ok cp hcr hsort, bind_ok]
  exact sec8mix_ok biz hb

lemma sec4to8_ok (mkt biz : DF) (hM : MOK mkt)
    (hb : biz.isEmptyB = true ∨ BizOK biz) : sec4to8 mkt biz = .ok () := by
  unfold sec4to8
  by_cases he : mkt.isEmptyB = true
  · rw [he]
    rfl
  · have he2 : mkt.isEmptyB = false := Bool.eq_false_iff.mpr he
    rw [he2]
    have hne := rows_ne_nil_of_not_emptyB mkt he2
    have hcols := hM.2 hne
    rw [Bool.and_eq_true, Bool.and_eq_true, Bool.and_eq_true] at hcols
    obtain ⟨⟨⟨hsp, hrv⟩, hsc⟩, hdt⟩ := hcols
    rw [channel_perf_ok mkt hsc hsp hrv
      (fun r hr => ⟨(hM.1 r hr).1, (hM.1 r hr).2.1⟩), bind_ok]
    rw [colE_ok (DF.mk ["source", "spend", "revenue", "roas"]
        (((groupKeys mkt ["source"]).map (srcAggRow mkt)).map roasRow)) "spend" rfl, bind_ok,
      sumValsE_col _ "spend"
        (fun r hr => numOrNa_of_isNumV _ (cp_row_cells mkt r hr).1), bind_ok]
    rw [colE_ok (DF.mk ["source", "spend", "revenue", "roas"]
        (((groupKeys mkt ["source"]).map (srcAggRow mkt)).map roasRow)) "revenue" rfl, bind_ok,
      sumValsE_col _ "revenue"
        (fun r hr => numOrNa_of_isNumV _ (cp_row_cells mkt r hr).2.1), bind_ok]
    rw [mapM_divVal_ok _ "spend" _ (fun r hr => (cp_row_cells mkt r hr).1), bind_ok]
    rw [mapM_divVal_ok _ "revenue" _ (fun r hr => (cp_row_cells mkt r hr).2.1), bind_ok]
    rw [sec6_ok _ biz (fun r hr => (cp_row_cells mkt r hr).1) hb, bind_ok]
    rw [sec7_ok mkt biz hM hne hb, bind_ok]
    exact sec8_ok mkt biz _ hM hne hb rfl (fun r hr => (cp_row_cells mkt r hr).2.2)

def c7bad : FS := [("Facebook.csv", FileContent.table (DF.mk ["date", "spend"]
  [[("date", Value.str "2024-01-01"), ("spend", Value.num 100)],
   [("date", Value.str "2024-01-02"), ("spend", Value.str "abc")]]))]

set_option maxRecDepth 40000 in
/-- C7 counterexample: the claim says the pipeline is a total function over
every combination of per-source states {present-valid, present-malformed,
absent}.  But a present Facebook.csv that parses fine as tabular data while
carrying the non-numeric spend cell "abc" makes the script raise: the
channel spend groupby of section 2 (app.py line 103) sums a column mixing a
number with a string and a TypeError escapes (there is no numeric coercion,
cf. C5).  Here every other source is absent, an allowed state. -/
theorem C7_counterexample : script c7bad = .error "TypeError" := by
  with_unfolding_all rfl

/-- C7 (amended): the pipeline's computational content is total over the
restricted input space where each per-source file is absent, raises on
read/parse (malformed as *non-tabular*), or parses to a frame whose
canonical numeric cells are in fact numeric (wellFormedMkt/wellFormedBiz):
under those per-source states no error escapes `script`. -/
theorem C7_total_under_wellformed (fs : FS)
    (h1 : mktStateOK (fsGet fs "Facebook.csv"))
    (h2 : mktStateOK (fsGet fs "data/Google.csv"))
    (h3 : mktStateOK (fsGet fs "data/TikTok.csv"))
    (h4 : bizStateOK (fsGet fs "business.csv")) :
    script fs = .ok () := by
  have hM : MOK (load_data fs).1 :=
    concatDF3_MOK _ _ _
      (norm_MOK (safe_read fs "Facebook.csv") "Facebook" (safe_read_wfM fs _ h1))
      (norm_MOK (safe_read fs "data/Google.csv") "Google" (safe_read_wfM fs _ h2))
      (norm_MOK (safe_read fs "data/TikTok.csv") "TikTok" (safe_read_wfM fs _ h3))
  have hBiz : (load_data fs).2.isEmptyB = true ∨ BizOK (load_data fs).2 :=
    BizOK_branch (safe_read fs "business.csv") (safe_read_wfB fs _ h4)
  unfold script
  rw [sec1_ok _ hBiz, bind_ok, sec2_ok _ hM, bind_ok, sec3_ok _ hM, bind_ok]
  exact sec4to8_ok _ _ hM hBiz

def c7fs : FS :=
  [("Facebook.csv", FileContent.table (DF.mk ["date", "spend", "revenue"]
     [[("date", Value.str "2024-01-01"), ("spend", Value.num 100),
       ("revenue", Value.num 250)]])),
   ("data/TikTok.csv", FileContent.malformedFile),
   ("business.csv", FileContent.table (DF.mk ["date", "# of orders", "total revenue"]
     [[("date", Value.str "2024-01-01"), ("# of orders", Value.num 10),
       ("total revenue", Value.num 500)]]))]

/-- C7 witness: a valid Facebook file, an absent Google file, a
non-tabular TikTok file and a valid business file together run the whole
script without an escaping error. -/
theorem C7_total_under_wellformed_witness : script c7fs = .ok () :=
  C7_total_under_wellformed c7fs
    ((by decide : wellFormedMkt (DF.mk ["date", "spend", "revenue"]
       [[("date", Value.str "2024-01-01"), ("spend", Value.num 100),
         ("revenue", Value.num 250)]]) = true))
    True.intro
    True.intro
    ((by decide : wellFormedBiz (DF.mk ["date", "# of orders", "total revenue"]
       [[("date", Value.str "2024-01-01"), ("# of orders", Value.num 10),
         ("total revenue", Value.num 500)]]) = true))

end MD
